import Mathlib

/-!
Verification development for scripts/data_pipeline.py.

The program is shallowly embedded: Python strings are modelled as lists of
characters (`PyStr`), pandas DataFrames as row-oriented tables of dynamic
cells, and each function of the script as a Lean function translated from
its source.  Python's `None` return values and raised exceptions are
modelled with `Option`.

Modelling notes, recorded once here:
- `str.lower` is modelled on its ASCII fragment (the script only relies on
  ASCII case folding of its keyword prefixes).
- numeric CSV cells (int64/float64 columns) are modelled over `Int`; no
  claim depends on fractional values.
- `pd.to_datetime(errors="coerce")` is modelled by `parseStamp`, a parser of
  the ISO forms the script's data and pandas' own string representation use;
  every claim is agnostic to the breadth of accepted formats.
-/

set_option maxHeartbeats 1000000
set_option maxRecDepth 8000

/-- Python strings, modelled as their sequence of code points. -/
abbrev PyStr := List Char

/-- ASCII fragment of Python's str.lower, applied per character
(mirrors core toLower, and Python's lower on ASCII input). -/
def pyLowerChar (c : Char) : Char :=
  if 65 ≤ c.toNat ∧ c.toNat ≤ 90 then Char.ofNat (c.toNat + 32) else c

/-- Python str.lower. -/
def pyLower (s : PyStr) : PyStr := s.map pyLowerChar

/-- Python str.strip(): remove leading and trailing whitespace. -/
def pyStrip (s : PyStr) : PyStr :=
  ((s.dropWhile Char.isWhitespace).reverse.dropWhile Char.isWhitespace).reverse

/-- Python s.startswith(pre). -/
def py_startswith (s pre : PyStr) : Bool := s.take pre.length == pre

/-- Python str.split() with no separator: split on whitespace runs,
discarding empty pieces. -/
def pySplit (s : PyStr) : List PyStr :=
  (s.splitOnP Char.isWhitespace).filter (fun w => !w.isEmpty)

/-- Python s.split(sep, 1)[1]: everything after the first occurrence of sep. -/
def afterFirst (sep : Char) (s : PyStr) : PyStr :=
  (s.dropWhile (fun c => c ≠ sep)).drop 1

/-- Python s.split(sep, 1)[0]: everything before the first occurrence of sep. -/
def beforeFirst (sep : Char) (s : PyStr) : PyStr :=
  s.takeWhile (fun c => c ≠ sep)

/-- Nonempty all-digit string (regex fragment for one or more digits). -/
def isDigits (s : PyStr) : Bool := !s.isEmpty && s.all Char.isDigit

/-- The unsigned decimal value pattern of the range branch's regex:
digits optionally followed by a dot and digits, anchored. -/
def isUnsignedDec (s : PyStr) : Bool :=
  !(s.takeWhile Char.isDigit).isEmpty &&
    ((s.dropWhile Char.isDigit).isEmpty ||
      ((s.dropWhile Char.isDigit).take 1 == ['.'] &&
        isDigits ((s.dropWhile Char.isDigit).drop 1)))

/-- The four comparison operators of the shorthand grammar, in the order the
source tries them. -/
def OPS : List PyStr := [(">=").toList, (">").toList, ("<=").toList, ("<").toList]

/-- The range branch's anchored regex match: an operator alternation followed
by an unsigned decimal, returning the two capture groups.  Its sequential
try-order is extensionally the regex's (a value group never starts with an
equals sign, so no backtracking case is lost). -/
def decMatch (s : PyStr) : Option (PyStr × PyStr) :=
  if py_startswith s ((">=").toList) && isUnsignedDec (s.drop 2) then
    some ((">=").toList, s.drop 2)
  else if py_startswith s ((">").toList) && isUnsignedDec (s.drop 1) then
    some ((">").toList, s.drop 1)
  else if py_startswith s (("<=").toList) && isUnsignedDec (s.drop 2) then
    some (("<=").toList, s.drop 2)
  else if py_startswith s (("<").toList) && isUnsignedDec (s.drop 1) then
    some (("<").toList, s.drop 1)
  else none

/-- A single-quote character, kept in one place for the SQL text builders. -/
def SQ : PyStr := [Char.ofNat 39]

/-- SQL text of the title branch (the source lowercases the term inside the
f-string). -/
def titleSQL (term : PyStr) : PyStr :=
  ("SELECT * FROM flattened_data WHERE lower(title) ILIKE ").toList ++ SQ ++
    ("%").toList ++ pyLower term ++ ("%").toList ++ SQ ++ (";").toList

/-- SQL text of the emails branch. -/
def emailsSQL (term : PyStr) : PyStr :=
  ("SELECT * FROM flattened_data WHERE \"emails\" ILIKE ").toList ++ SQ ++
    ("%").toList ++ term ++ ("%").toList ++ SQ ++ (";").toList

/-- SQL text of the range branch. -/
def rangeSQL (field op val : PyStr) : PyStr :=
  ("SELECT * FROM flattened_data WHERE ").toList ++ field ++ (" ").toList ++
    op ++ (" ").toList ++ val ++ (";").toList

/-- Structured error row returned for a range query of unexpected arity. -/
def rangeErrSQL : PyStr :=
  ("SELECT ").toList ++ SQ ++ ("Invalid range query").toList ++ SQ ++
    (" AS error;").toList

/-- SQL text of the filter branch. -/
def filterSQL (email_term tech_term op pop_val : PyStr) : PyStr :=
  ("SELECT * FROM flattened_data WHERE \"emails\" ILIKE ").toList ++ SQ ++
    ("%").toList ++ email_term ++ ("%").toList ++ SQ ++
    (" AND \"tech_names\" ILIKE ").toList ++ SQ ++ ("%").toList ++ tech_term ++
    ("%").toList ++ SQ ++ (" AND pop_estimate_2022 ").toList ++ op ++
    (" ").toList ++ pop_val ++ (";").toList

/-- Structured error row for a filter query that is not three tokens. -/
def filterFmtErrSQL : PyStr :=
  ("SELECT ").toList ++ SQ ++ ("Invalid filter query format").toList ++ SQ ++
    (" AS error;").toList

/-- Structured error row for a filter population expression with an
unrecognized operator. -/
def popErrSQL : PyStr :=
  ("SELECT ").toList ++ SQ ++ ("Invalid population expression").toList ++ SQ ++
    (" AS error;").toList

/-- SQL text of the crm branch for parameter a. -/
def crmASQL : PyStr :=
  ("SELECT * FROM flattened_data WHERE sfdc_id IS NOT NULL;").toList

/-- SQL text of the crm branch for parameter b. -/
def crmBSQL : PyStr :=
  ("SELECT * FROM flattened_data WHERE hubspot_id IS NOT NULL;").toList

/-- SQL text of the crm branch for parameter all. -/
def crmAllSQL : PyStr :=
  ("SELECT * FROM flattened_data WHERE sfdc_id IS NOT NULL OR hubspot_id IS NOT NULL;").toList

/-- Structured error row for a bad crm parameter. -/
def crmErrSQL : PyStr :=
  ("SELECT ").toList ++ SQ ++ ("Invalid crm parameter").toList ++ SQ ++
    (" AS error;").toList

/-- SQL text of the generic field:term fallback. -/
def genericSQL (field term : PyStr) : PyStr :=
  ("SELECT * FROM flattened_data WHERE ").toList ++ field ++
    (" ILIKE ").toList ++ SQ ++ ("%").toList ++ term ++ ("%").toList ++ SQ ++
    (";").toList

/-- SQL text of the no-colon full-text fallback. -/
def fullTextSQL (user_query : PyStr) : PyStr :=
  ("SELECT * FROM flattened_data WHERE \"document\" @@ plainto_tsquery(").toList ++
    SQ ++ ("english").toList ++ SQ ++ (", ").toList ++ SQ ++ user_query ++ SQ ++
    (");").toList

/-- The range: branch of parse_custom_query.  With two tokens the second must
match the anchored regex, otherwise control falls off the end of the Python
function (None, modelled as none); with three tokens the pieces are
interpolated unvalidated; otherwise the structured error row is returned. -/
def rangeBranch (user_query : PyStr) : Option PyStr :=
  if (pySplit (pyStrip (user_query.drop 6))).length = 2 then
    match decMatch ((pySplit (pyStrip (user_query.drop 6))).getD 1 []) with
    | some (op, val) =>
        some (rangeSQL ((pySplit (pyStrip (user_query.drop 6))).getD 0 []) op val)
    | none => none
  else if (pySplit (pyStrip (user_query.drop 6))).length = 3 then
    some (rangeSQL ((pySplit (pyStrip (user_query.drop 6))).getD 0 [])
      ((pySplit (pyStrip (user_query.drop 6))).getD 1 [])
      ((pySplit (pyStrip (user_query.drop 6))).getD 2 []))
  else some rangeErrSQL

/-- Operator dispatch of the filter branch on the population expression. -/
def filterPop (email_term tech_term pop_expr : PyStr) : PyStr :=
  if py_startswith pop_expr ((">=").toList) then
    filterSQL email_term tech_term ((">=").toList) (pop_expr.drop 2)
  else if py_startswith pop_expr ((">").toList) then
    filterSQL email_term tech_term ((">").toList) (pop_expr.drop 1)
  else if py_startswith pop_expr (("<=").toList) then
    filterSQL email_term tech_term (("<=").toList) (pop_expr.drop 2)
  else if py_startswith pop_expr (("<").toList) then
    filterSQL email_term tech_term (("<").toList) (pop_expr.drop 1)
  else popErrSQL

/-- The filter: branch of parse_custom_query. -/
def filterBranch (user_query : PyStr) : Option PyStr :=
  if (pySplit (pyStrip (user_query.drop 7))).length = 3 then
    some (filterPop ((pySplit (pyStrip (user_query.drop 7))).getD 0 [])
      ((pySplit (pyStrip (user_query.drop 7))).getD 1 [])
      ((pySplit (pyStrip (user_query.drop 7))).getD 2 []))
  else some filterFmtErrSQL

/-- The crm: branch of parse_custom_query. -/
def crmBranch (user_query : PyStr) : PyStr :=
  if pyLower (pyStrip (afterFirst (':') user_query)) = ("a").toList then crmASQL
  else if pyLower (pyStrip (afterFirst (':') user_query)) = ("b").toList then crmBSQL
  else if pyLower (pyStrip (afterFirst (':') user_query)) = ("all").toList then crmAllSQL
  else crmErrSQL

/-- Shallow embedding of parse_custom_query (source lines 327-388).
Python's fall-through return of None (2-token range with a failed regex
match) is the none value. -/
def parse_custom_query (user_query : PyStr) : Option PyStr :=
  if py_startswith (pyLower user_query) (("title:").toList) then
    some (titleSQL (pyStrip (afterFirst (':') user_query)))
  else if py_startswith (pyLower user_query) (("emails:").toList) then
    some (emailsSQL (pyLower (pyStrip (afterFirst (':') user_query))))
  else if py_startswith (pyLower user_query) (("range:").toList) then
    rangeBranch user_query
  else if py_startswith (pyLower user_query) (("filter:").toList) then
    filterBranch user_query
  else if py_startswith (pyLower user_query) (("crm:").toList) then
    some (crmBranch user_query)
  else if ':' ∈ user_query then
    some (genericSQL (pyStrip (beforeFirst (':') user_query))
      (pyLower (pyStrip (afterFirst (':') user_query))))
  else some (fullTextSQL user_query)

/-- Statement selection of the interactive loop (source lines 399-408): the
translator is consulted only when a keyword prefix matches or the input
contains a colon; otherwise the raw input is used as the statement. -/
def interactive_sql (user_input : PyStr) : Option PyStr :=
  if py_startswith (pyLower user_input) (("title:").toList)
      || py_startswith (pyLower user_input) (("emails:").toList)
      || py_startswith (pyLower user_input) (("range:").toList)
      || py_startswith (pyLower user_input) (("filter:").toList)
      || py_startswith (pyLower user_input) (("crm:").toList)
      || decide (':' ∈ user_input) then
    parse_custom_query user_input
  else some user_input

/-- Result presentation of the interactive loop (source lines 409-417): the
matching rows are fetched in full, their count is reported, and only the
first ten are printed as a preview. -/
def executor_run (table : List α) (pred : α → Bool) : List α × Nat :=
  ((table.filter pred).take 10, (table.filter pred).length)

/-- A cleaned contact row, with the columns the merge logic touches;
place_id may be missing (NaN). -/
structure Contact where
  id : Int
  place_id : Option Int
  emails : PyStr
  title : PyStr
deriving DecidableEq

/-- A cleaned entity (place) row. -/
structure Entity where
  place_id : Option Int
  display_name : PyStr
  pop_estimate_2022 : Option Int
  lat : Option Int
  long : Option Int
deriving DecidableEq

/-- A cleaned techstack tag row. -/
structure Tag where
  place_id : Option Int
  name : PyStr
deriving DecidableEq

/-- A row of the customerA (SFDC) mapping. -/
structure MapA where
  sfdc_id : PyStr
  place_id : Option Int
deriving DecidableEq

/-- A row of the customerB (HubSpot) mapping. -/
structure MapB where
  hubspot_id : PyStr
  place_id : Option Int
deriving DecidableEq

/-- pandas merge key comparison: merge factorizes the key columns and maps
the NaN sentinel to one shared code on both sides, so a missing (NaN) key
joins with a missing key — unlike SQL equality. -/
def keyMatch (x y : Option Int) : Bool := x == y

/-- The right-side rows matching a left key. -/
def matchesOf (rs : List β) (rk : β → Option Int) (k : Option Int) : List β :=
  rs.filter (fun b => keyMatch k (rk b))

/-- The left-join image of one left row: its matches, or a single
null-padded row when there is none. -/
def mergeOne (rs : List β) (rk : β → Option Int) (lk : α → Option Int) (a : α) :
    List (α × Option β) :=
  if (matchesOf rs rk (lk a)).isEmpty then [(a, none)]
  else (matchesOf rs rk (lk a)).map (fun b => (a, some b))

/-- pandas merge(ls, rs, on=key, how="left"), keeping left order. -/
def leftMerge (ls : List α) (rs : List β) (lk : α → Option Int)
    (rk : β → Option Int) : List (α × Option β) :=
  ls.flatMap (mergeOne rs rk lk)

/-- Keep-first duplicate removal (pandas drop_duplicates). -/
def dedupF [DecidableEq α] : List α → List α
  | [] => []
  | a :: l => a :: (dedupF l).filter (fun x => x ≠ a)

/-- techstacks.groupby("place_id").agg(name = list): one row per distinct
non-null place_id carrying all its tag names (group order is irrelevant to
the left join that consumes it). -/
def groupTags (ts : List Tag) : List (Int × List PyStr) :=
  (dedupF (ts.filterMap Tag.place_id)).map
    (fun p => (p, (ts.filter (fun t => t.place_id == some p)).map Tag.name))

/-- The five cleaned tables flatten_data consumes. -/
structure FlatInput where
  contacts : List Contact
  entities : List Entity
  techstacks : List Tag
  customera : List MapA
  customerb : List MapB
deriving DecidableEq

/-- Row type after the contacts-entities merge. -/
abbrev M1 := Contact × Option Entity

/-- Row type after merging the aggregated tech names (an absent tech_names
column, when techstacks is empty, is modelled as none everywhere). -/
abbrev M2 := M1 × Option (List PyStr)

/-- Row type after merging customerA. -/
abbrev M3 := M2 × Option MapA

/-- Row type after merging customerB. -/
abbrev M4 := M3 × Option MapB

instance : DecidableEq M4 := instDecidableEqProd

/-- The contact of a flattened row. -/
def contactOf (r : M4) : Contact := r.1.1.1.1

/-- The joined entity (if any) of a flattened row. -/
def entityOf (r : M4) : Option Entity := r.1.1.1.2

/-- The aggregated tech names (if any) of a flattened row. -/
def techOf (r : M4) : Option (List PyStr) := r.1.1.2

/-- Does a flattened row's contact sit at place p. -/
def contactAt (p : Int) (r : M4) : Bool := (contactOf r).place_id == some p

/-- The techstack merge statement of flatten_data (source lines 290-294):
join the by-place aggregation when the tag table is nonempty, otherwise add
an all-null tech_names column. -/
def stage2 (ts : List Tag) (m1 : List M1) : List M2 :=
  if ts.isEmpty then m1.map (fun r => (r, none))
  else (leftMerge m1 (groupTags ts) (fun r => r.1.place_id)
      (fun g => some g.1)).map (fun rg => (rg.1, rg.2.map Prod.snd))

/-- The customerA merge statement of flatten_data (source lines 296-297). -/
def stage3 (ma : List MapA) (m2 : List M2) : List M3 :=
  if ma.isEmpty then m2.map (fun r => (r, none))
  else leftMerge m2 ma (fun r => r.1.1.place_id) MapA.place_id

/-- The customerB merge statement of flatten_data (source lines 298-299). -/
def stage4 (mb : List MapB) (m3 : List M3) : List M4 :=
  if mb.isEmpty then m3.map (fun r => (r, none))
  else leftMerge m3 mb (fun r => r.1.1.1.place_id) MapB.place_id

/-- Shallow embedding of flatten_data (source lines 277-301): left-join
contacts to entities, then the tag aggregation, then each nonempty mapping
table; missing contacts or entities abort with an empty result, modelled as
none. -/
def flatten_data (d : FlatInput) : Option (List M4) :=
  if d.contacts.isEmpty || d.entities.isEmpty then none
  else
    some (stage4 d.customerb (stage3 d.customera (stage2 d.techstacks
      (leftMerge d.contacts d.entities Contact.place_id Entity.place_id))))

/-- FROM/JOIN row sets of SQL: a LEFT JOIN contributes one null row when
nothing matches. -/
def lrows (ms : List β) : List (Option β) :=
  if ms.isEmpty then [none] else ms.map some

/-- A row of the view's FROM clause after all joins, before GROUP BY. -/
structure JRow where
  c : Contact
  e : Entity
  t : Option Tag
  a : Option MapA
  b : Option MapB
deriving DecidableEq

/-- SQL join equality: a NULL key compares equal to nothing (NULL = NULL is
not true), unlike the pandas merge above. -/
def sqlEq (x y : Option Int) : Bool :=
  match x, y with
  | some a, some b => a == b
  | _, _ => false

/-- The joined row set of the flattened_data materialized view (source lines
257-261): an inner join of contacts to entities followed by left joins of
techstacks and both mappings. -/
def viewJoined (d : FlatInput) : List JRow :=
  d.contacts.flatMap fun c =>
    (d.entities.filter (fun e => sqlEq c.place_id e.place_id)).flatMap fun e =>
      (lrows (d.techstacks.filter (fun t => sqlEq e.place_id t.place_id))).flatMap fun t? =>
        (lrows (d.customera.filter (fun a => sqlEq e.place_id a.place_id))).flatMap fun a? =>
          (lrows (d.customerb.filter (fun b => sqlEq e.place_id b.place_id))).map fun b? =>
            ⟨c, e, t?, a?, b?⟩

/-- The view's GROUP BY key (source line 262); SQL grouping places all null
mapping ids in one group, as Option equality does. -/
structure GKey where
  id : Int
  emails : PyStr
  title : PyStr
  display_name : PyStr
  pop : Option Int
  lat : Option Int
  lng : Option Int
  sfdc : Option PyStr
  hub : Option PyStr
deriving DecidableEq

/-- The GROUP BY key of a joined row. -/
def gkey (r : JRow) : GKey :=
  ⟨r.c.id, r.c.emails, r.c.title, r.e.display_name, r.e.pop_estimate_2022,
    r.e.lat, r.e.long, r.a.map MapA.sfdc_id, r.b.map MapB.hubspot_id⟩

/-- SQL string_agg separator join. -/
def spaceJoin : List PyStr → PyStr
  | [] => []
  | [x] => x
  | x :: xs => x ++ ' ' :: spaceJoin xs

/-- coalesce(string_agg(lower(t.name), space), empty) over a group. -/
def aggTech (rows : List JRow) : PyStr :=
  spaceJoin ((rows.filterMap JRow.t).map (fun t => pyLower t.name))

/-- A row of the materialized view; document abstracts to_tsvector to the
text it indexes. -/
structure VRow where
  contact_id : Int
  emails : PyStr
  title : PyStr
  display_name : PyStr
  pop_estimate_2022 : Option Int
  lat : Option Int
  long : Option Int
  tech_names : PyStr
  sfdc_id : Option PyStr
  hubspot_id : Option PyStr
  document : PyStr
deriving DecidableEq

/-- Shallow embedding of the flattened_data materialized view (source lines
238-262): group the joined rows by their GROUP BY key and aggregate the tag
names of each group. -/
def flattened_view (d : FlatInput) : List VRow :=
  (dedupF ((viewJoined d).map gkey)).map fun k =>
    { contact_id := k.id
      emails := pyLower k.emails
      title := pyLower k.title
      display_name := pyLower k.display_name
      pop_estimate_2022 := k.pop
      lat := k.lat
      long := k.lng
      tech_names := aggTech ((viewJoined d).filter (fun r => gkey r == k))
      sfdc_id := k.sfdc
      hubspot_id := k.hub
      document := pyLower k.emails ++ ' ' :: pyLower k.title ++ ' ' ::
        aggTech ((viewJoined d).filter (fun r => gkey r == k)) }

/-- A parsed timestamp (pandas Timestamp), to calendar-second precision. -/
structure Stamp where
  y : Nat
  mo : Nat
  d : Nat
  h : Nat
  mi : Nat
  s : Nat
deriving DecidableEq

/-- The component ranges pandas accepts when parsing (approximating the
calendar by at most 31 days; no claim depends on month lengths). -/
def validStamp (t : Stamp) : Bool :=
  1000 ≤ t.y && t.y ≤ 9999 && 1 ≤ t.mo && t.mo ≤ 12 && 1 ≤ t.d && t.d ≤ 31 &&
    t.h < 24 && t.mi < 60 && t.s < 60

/-- Two decimal digits to a number. -/
def d2 (a b : Char) : Option Nat :=
  if a.isDigit && b.isDigit then some ((a.toNat - 48) * 10 + (b.toNat - 48))
  else none

/-- Four decimal digits to a number. -/
def d4 (a b c d : Char) : Option Nat :=
  if a.isDigit && b.isDigit && c.isDigit && d.isDigit then
    some ((a.toNat - 48) * 1000 + (b.toNat - 48) * 100 + (c.toNat - 48) * 10 +
      (d.toNat - 48))
  else none

/-- Model of pd.to_datetime(errors="coerce") on one cell's text: parse the
ISO date or date-time forms, anything else (including the nan and NaT texts)
coerces to nothing. -/
def parseStamp : PyStr → Option Stamp
  | [y1, y2, y3, y4, '-', m1, m2, '-', dd1, dd2] => do
      let y ← d4 y1 y2 y3 y4
      let mo ← d2 m1 m2
      let dd ← d2 dd1 dd2
      if validStamp ⟨y, mo, dd, 0, 0, 0⟩ then some ⟨y, mo, dd, 0, 0, 0⟩ else none
  | [y1, y2, y3, y4, '-', m1, m2, '-', dd1, dd2, ' ',
     h1, h2, ':', mi1, mi2, ':', s1, s2] => do
      let y ← d4 y1 y2 y3 y4
      let mo ← d2 m1 m2
      let dd ← d2 dd1 dd2
      let hh ← d2 h1 h2
      let mm ← d2 mi1 mi2
      let ss ← d2 s1 s2
      if validStamp ⟨y, mo, dd, hh, mm, ss⟩ then some ⟨y, mo, dd, hh, mm, ss⟩
      else none
  | _ => none

/-- One decimal digit as a character. -/
def digitChar (n : Nat) : Char := Char.ofNat (48 + n % 10)

/-- Two-digit zero-padded print. -/
def pad2 (n : Nat) : PyStr := [digitChar (n / 10), digitChar n]

/-- Four-digit zero-padded print. -/
def pad4 (n : Nat) : PyStr :=
  [digitChar (n / 1000), digitChar (n / 100), digitChar (n / 10), digitChar n]

/-- str() of a pandas Timestamp: the ISO date-time form. -/
def reprStamp (t : Stamp) : PyStr :=
  pad4 t.y ++ '-' :: pad2 t.mo ++ '-' :: pad2 t.d ++ ' ' :: pad2 t.h ++
    ':' :: pad2 t.mi ++ ':' :: pad2 t.s

/-- Scanner for the global non-greedy removal of parenthesized segments
(re.sub of an open paren, a minimal non-newline run, and a close paren).
The first argument buffers the text seen since an unclosed open paren; a
close paren discards the buffer, a newline or the end of input emits it
literally (the regex cannot match across either). -/
def spGo : Option PyStr → PyStr → PyStr
  | none, [] => []
  | none, c :: rest =>
      if c = '(' then spGo (some []) rest else c :: spGo none rest
  | some buf, [] => '(' :: buf
  | some buf, c :: rest =>
      if c = ')' then spGo none rest
      else if c = '\n' then ('(' :: buf) ++ '\n' :: spGo none rest
      else spGo (some (buf ++ [c])) rest

/-- The str.replace of the parenthesized timezone text (source line 142). -/
def stripParens (s : PyStr) : PyStr := spGo none s

/-- pandas column dtypes the script distinguishes: object, numeric
(int64/float64), datetime64. -/
inductive DType where
  | obj
  | num
  | dt
deriving DecidableEq

/-- A dynamic cell of a DataFrame. -/
inductive Val where
  | vs (s : PyStr)
  | vnum (n : Int)
  | vdt (t : Stamp)
  | vnull
deriving DecidableEq

/-- A DataFrame: named, typed columns over rows of dynamic cells. -/
structure DF where
  header : List (PyStr × DType)
  rows : List (List Val)
deriving DecidableEq

/-- pandas DataFrame.empty: some axis has length zero. -/
def dfEmpty (df : DF) : Bool := df.rows.isEmpty || df.header.isEmpty

/-- Lower-case all column names. -/
def lowerNames (h : List (PyStr × DType)) : List (PyStr × DType) :=
  h.map (fun p => (pyLower p.1, p.2))

/-- The header-lowering loop at the top of clean_data runs per table only
when the table is nonempty. -/
def lowerIfNonempty (df : DF) : DF :=
  if dfEmpty df then df else ⟨lowerNames df.header, df.rows⟩

/-- Series.str.strip() on one cell: non-strings of an object column become
null, as the str accessor makes them. -/
def stripCell : Val → Val
  | .vs s => .vs (pyStrip s)
  | _ => .vnull

/-- Strip every object-typed column of a row except the excluded names. -/
def stripRow (hdr : List (PyStr × DType)) (excl : List PyStr) (row : List Val) :
    List Val :=
  (hdr.zip row).map
    (fun hv => if hv.1.2 = DType.obj ∧ hv.1.1 ∉ excl then stripCell hv.2 else hv.2)

/-- Strip the object columns of a whole table. -/
def stripObjs (excl : List PyStr) (df : DF) : DF :=
  ⟨df.header, df.rows.map (stripRow df.header excl)⟩

/-- Series.astype(str) on one cell, by column dtype (a null prints as NaT in
a datetime column and as nan elsewhere). -/
def astypeStrCell (dty : DType) : Val → PyStr
  | .vs s => s
  | .vnum n => (toString n).toList
  | .vdt t => reprStamp t
  | .vnull => if dty = DType.dt then ("NaT").toList else ("nan").toList

/-- The whole created_at cell pipeline of source lines 141-144: print,
remove parenthesized segments, strip, then parse with coercion of failures
to null. -/
def cleanCreatedCell (dty : DType) (v : Val) : Val :=
  match parseStamp (pyStrip (stripParens (astypeStrCell dty v))) with
  | some t => .vdt t
  | none => .vnull

/-- Index of the first column with the given name. -/
def findColIdx (nm : PyStr) (df : DF) : Option Nat :=
  List.findIdx? (fun p => p.1 == nm) df.header

/-- The created_at transform of clean_data; a missing created_at column is
Python's KeyError, modelled as none. -/
def fixCreated (df : DF) : Option DF :=
  match findColIdx (("created_at").toList) df with
  | none => none
  | some i =>
      some ⟨List.modify (fun p => (p.1, DType.dt)) i df.header,
        df.rows.map
          (List.modify (cleanCreatedCell (df.header.getD i ([], DType.obj)).2) i)⟩

/-- Prepend the synthesized 1-based id column to every row. -/
def addIdCol : Int → List (List Val) → List (List Val)
  | _, [] => []
  | k, r :: rs => (Val.vnum k :: r) :: addIdCol (k + 1) rs

/-- Insert the surrogate id column when no (lower-cased) id column exists
(source lines 148-151). -/
def maybeAddId (df : DF) : DF :=
  if (("id").toList) ∈ df.header.map (fun p => pyLower p.1) then df
  else ⟨(("id").toList, DType.num) :: df.header, addIdCol 1 df.rows⟩

/-- The contact-table branch of clean_data (source lines 139-153):
created_at repair, text trimming, id synthesis, duplicate removal; an empty
table passes through untouched. -/
def cleanContacts (df : DF) : Option DF :=
  if dfEmpty df then some df
  else
    match fixCreated df with
    | none => none
    | some z1 =>
        some ⟨(maybeAddId (stripObjs [("created_at").toList] z1)).header,
          dedupF (maybeAddId (stripObjs [("created_at").toList] z1)).rows⟩

/-- The cleaning applied to entities, techstacks and both mappings
(source lines 157-181): trim text cells, drop exact-duplicate rows; empty
tables pass through. -/
def cleanGeneric (df : DF) : DF :=
  if dfEmpty df then df
  else ⟨df.header, dedupF (df.rows.map (stripRow df.header []))⟩

/-- The five raw tables clean_data receives. -/
structure CleanIn where
  contacts : DF
  entities : DF
  techstacks : DF
  customerA : DF
  customerB : DF
deriving DecidableEq

/-- Shallow embedding of clean_data (source lines 134-188). -/
def clean_data (d : CleanIn) : Option CleanIn :=
  match cleanContacts (lowerIfNonempty d.contacts) with
  | none => none
  | some c =>
      some ⟨c, cleanGeneric (lowerIfNonempty d.entities),
        cleanGeneric (lowerIfNonempty d.techstacks),
        cleanGeneric (lowerIfNonempty d.customerA),
        cleanGeneric (lowerIfNonempty d.customerB)⟩

/-- The cells of a named column, top to bottom. -/
def colCells (df : DF) (nm : PyStr) : Option (List Val) :=
  (findColIdx nm df).map (fun i => df.rows.map (fun r => r.getD i Val.vnull))

/-- A cell that holds a parsed timestamp or a null. -/
def isDtOrNull : Val → Bool
  | .vdt _ => true
  | .vnull => true
  | _ => false

/-- Example raw contacts table for the normalization witnesses. -/
def exRawContacts : DF :=
  ⟨[(("Place_ID").toList, DType.num), (("Emails").toList, DType.obj),
    (("created_at").toList, DType.obj)],
   [[Val.vnum 5, Val.vs (("  a@x ").toList),
     Val.vs (("2023-01-15 10:30:00 (Pacific Time)").toList)],
    [Val.vnum 9, Val.vs (("b@y").toList), Val.vs (("garbage").toList)]]⟩

/-- The empty DataFrame. -/
def exEmptyDF : DF := ⟨[], []⟩

/-- Example clean_data input. -/
def exCleanIn : CleanIn :=
  ⟨exRawContacts, exEmptyDF, exEmptyDF, exEmptyDF, exEmptyDF⟩

/-- The normalized output of the example input. -/
def exCleanOut : CleanIn :=
  ⟨⟨[(("id").toList, DType.num), (("place_id").toList, DType.num),
     (("emails").toList, DType.obj), (("created_at").toList, DType.dt)],
    [[Val.vnum 1, Val.vnum 5, Val.vs (("a@x").toList),
      Val.vdt ⟨2023, 1, 15, 10, 30, 0⟩],
     [Val.vnum 2, Val.vnum 9, Val.vs (("b@y").toList), Val.vnull]]⟩,
   exEmptyDF, exEmptyDF, exEmptyDF, exEmptyDF⟩

/-- Contacts table with a duplicated provided id. -/
def exDupIn : CleanIn :=
  ⟨⟨[(("id").toList, DType.num), (("emails").toList, DType.obj),
     (("created_at").toList, DType.obj)],
    [[Val.vnum 1, Val.vs (("a@x").toList), Val.vs (("2023-01-15").toList)],
     [Val.vnum 1, Val.vs (("b@y").toList), Val.vs (("2023-01-15").toList)]]⟩,
   exEmptyDF, exEmptyDF, exEmptyDF, exEmptyDF⟩

/-- clean_data output for the duplicated-id table. -/
def exDupOut : CleanIn :=
  ⟨⟨[(("id").toList, DType.num), (("emails").toList, DType.obj),
     (("created_at").toList, DType.dt)],
    [[Val.vnum 1, Val.vs (("a@x").toList), Val.vdt ⟨2023, 1, 15, 0, 0, 0⟩],
     [Val.vnum 1, Val.vs (("b@y").toList), Val.vdt ⟨2023, 1, 15, 0, 0, 0⟩]]⟩,
   exEmptyDF, exEmptyDF, exEmptyDF, exEmptyDF⟩

/-- Example contact for the concrete witnesses. -/
def exContact : Contact := ⟨1, some 5, [], []⟩

/-- Example entity (at the example contact's place) for the witnesses. -/
def exEntity : Entity := ⟨some 5, [], none, none, none⟩

/-- Example tag table: three tags at the example place. -/
def exTags : List Tag :=
  [⟨some 5, ("react").toList⟩, ⟨some 5, ("node").toList⟩, ⟨some 5, ("pg").toList⟩]

/-- The names of the example tags. -/
def exNames : List PyStr := [("react").toList, ("node").toList, ("pg").toList]

/-- flatten_data output for the example input with the three example tags. -/
def exOut1 : List M4 := [((((exContact, some exEntity), some exNames), none), none)]

/-- flatten_data output for the example input with no tags. -/
def exOut2 : List M4 := [((((exContact, some exEntity), none), none), none)]

/-- The example flatten input (with an empty tag table). -/
def exIn1 : FlatInput := ⟨[exContact], [exEntity], [], [], []⟩

theorem charOfNat_toNat {n : Nat} (h : n < 55296) : (Char.ofNat n).toNat = n := by
  have hv : n.isValidChar := Or.inl h
  rw [Char.ofNat, dif_pos hv]
  rfl

theorem pyLowerChar_colon {c : Char} (h : pyLowerChar c = ':') : c = ':' := by
  unfold pyLowerChar at h
  split at h
  · next hc =>
      exfalso
      have h1 : (Char.ofNat (c.toNat + 32)).toNat = c.toNat + 32 :=
        charOfNat_toNat (by omega)
      rw [h] at h1
      have h2 : (':').toNat = 58 := by decide
      omega
  · exact h

theorem pyLowerChar_idem (c : Char) : pyLowerChar (pyLowerChar c) = pyLowerChar c := by
  by_cases hc : 65 ≤ c.toNat ∧ c.toNat ≤ 90
  · have h0 : pyLowerChar c = Char.ofNat (c.toNat + 32) := by
      unfold pyLowerChar; rw [if_pos hc]
    have h1 : (Char.ofNat (c.toNat + 32)).toNat = c.toNat + 32 :=
      charOfNat_toNat (by omega)
    rw [h0]
    unfold pyLowerChar
    rw [if_neg (by omega)]
  · have h0 : pyLowerChar c = c := by unfold pyLowerChar; rw [if_neg hc]
    rw [h0, h0]

theorem pyLower_idem (s : PyStr) : pyLower (pyLower s) = pyLower s := by
  simp [pyLower, Function.comp_def, pyLowerChar_idem]

theorem py_startswith_iff {s p : PyStr} : py_startswith s p = true ↔ s.take p.length = p := by
  simp [py_startswith]

theorem py_startswith_cons {s : PyStr} {c : Char} {p : PyStr}
    (h : py_startswith s (c :: p) = true) : ∃ t, s = c :: t := by
  rw [py_startswith_iff] at h
  cases s with
  | nil => simp at h
  | cons a t =>
      simp [List.take] at h
      exact ⟨t, by rw [h.1]⟩

theorem py_startswith_head_ne {t : PyStr} {c c' : Char} {p : PyStr} (hne : c' ≠ c) :
    py_startswith (c :: t) (c' :: p) = false := by
  rw [Bool.eq_false_iff]
  intro h
  rw [py_startswith_iff] at h
  simp [List.take] at h
  exact hne h.1.symm

theorem py_startswith_append (p v : PyStr) : py_startswith (p ++ v) p = true := by
  rw [py_startswith_iff]
  exact List.take_left p v

theorem mem_of_py_startswith {s p : PyStr} (h : py_startswith s p = true) {c : Char}
    (hc : c ∈ p) : c ∈ s := by
  rw [py_startswith_iff] at h
  rw [← h] at hc
  exact List.mem_of_mem_take hc

theorem isUnsignedDec_head {v : PyStr} (h : isUnsignedDec v = true) :
    ∃ c t, v = c :: t ∧ c.isDigit = true := by
  cases v with
  | nil => simp [isUnsignedDec] at h
  | cons c t =>
      refine ⟨c, t, rfl, ?_⟩
      by_contra hnd
      rw [Bool.not_eq_true] at hnd
      simp [isUnsignedDec, List.takeWhile, hnd] at h

theorem not_colon_no_prefix {q : PyStr} (h : ':' ∉ q) {p : PyStr} (hp : ':' ∈ p) :
    py_startswith (pyLower q) p = false := by
  rw [Bool.eq_false_iff]
  intro hs
  have hmem : (':' : Char) ∈ pyLower q := mem_of_py_startswith hs hp
  simp only [pyLower, List.mem_map] at hmem
  obtain ⟨c, hc, hlc⟩ := hmem
  exact h (by rw [← pyLowerChar_colon hlc]; exact hc)

theorem py_startswith_ne_of_startswith {s : PyStr} {c c' : Char} {p p' : PyStr}
    (h : py_startswith s (c :: p) = true) (hne : c' ≠ c) :
    py_startswith s (c' :: p') = false := by
  obtain ⟨t, rfl⟩ := py_startswith_cons h
  exact py_startswith_head_ne hne

theorem parse_range_dispatch {q : PyStr}
    (h : py_startswith (pyLower q) (("range:").toList) = true) :
    parse_custom_query q = rangeBranch q := by
  have h' : py_startswith (pyLower q) ('r' :: "ange:".toList) = true := h
  have h0 : py_startswith (pyLower q) (['r', 'a', 'n', 'g', 'e', ':']) = true := h
  have h1 : py_startswith (pyLower q) (['t', 'i', 't', 'l', 'e', ':']) = false :=
    py_startswith_ne_of_startswith h' (by decide)
  have h2 : py_startswith (pyLower q) (['e', 'm', 'a', 'i', 'l', 's', ':']) = false :=
    py_startswith_ne_of_startswith h' (by decide)
  simp [parse_custom_query, h1, h2, h0]

theorem parse_filter_dispatch {q : PyStr}
    (h : py_startswith (pyLower q) (("filter:").toList) = true) :
    parse_custom_query q = filterBranch q := by
  have h' : py_startswith (pyLower q) ('f' :: "ilter:".toList) = true := h
  have h0 : py_startswith (pyLower q) (['f', 'i', 'l', 't', 'e', 'r', ':']) = true := h
  have h1 : py_startswith (pyLower q) (['t', 'i', 't', 'l', 'e', ':']) = false :=
    py_startswith_ne_of_startswith h' (by decide)
  have h2 : py_startswith (pyLower q) (['e', 'm', 'a', 'i', 'l', 's', ':']) = false :=
    py_startswith_ne_of_startswith h' (by decide)
  have h3 : py_startswith (pyLower q) (['r', 'a', 'n', 'g', 'e', ':']) = false :=
    py_startswith_ne_of_startswith h' (by decide)
  simp [parse_custom_query, h1, h2, h3, h0]

theorem decMatch_of_valid {op v : PyStr} (hop : op ∈ OPS)
    (hv : isUnsignedDec v = true) : decMatch (op ++ v) = some (op, v) := by
  obtain ⟨c, t, rfl, hd⟩ := isUnsignedDec_head hv
  have hne : c ≠ '=' := by
    intro h
    rw [h] at hd
    simp [Char.isDigit] at hd
  simp only [OPS, List.mem_cons, List.not_mem_nil, or_false] at hop
  rcases hop with h | h | h | h <;> subst h
  · have h1 : py_startswith ('>' :: '=' :: c :: t) (['>', '=']) = true :=
      py_startswith_append (['>', '=']) (c :: t)
    simp [decMatch, h1, hv]
  · have h1 : py_startswith ('>' :: c :: t) (['>', '=']) = false := by
      simp [py_startswith, hne]
    have h2 : py_startswith ('>' :: c :: t) (['>']) = true :=
      py_startswith_append (['>']) (c :: t)
    simp [decMatch, h1, h2, hv]
  · have h1 : py_startswith ('<' :: '=' :: c :: t) (['>', '=']) = false := by
      simp [py_startswith]
    have h2 : py_startswith ('<' :: '=' :: c :: t) (['>']) = false := by
      simp [py_startswith]
    have h3 : py_startswith ('<' :: '=' :: c :: t) (['<', '=']) = true :=
      py_startswith_append (['<', '=']) (c :: t)
    simp [decMatch, h1, h2, h3, hv]
  · have h1 : py_startswith ('<' :: c :: t) (['>', '=']) = false := by
      simp [py_startswith]
    have h2 : py_startswith ('<' :: c :: t) (['>']) = false := by
      simp [py_startswith]
    have h3 : py_startswith ('<' :: c :: t) (['<', '=']) = false := by
      simp [py_startswith, hne]
    have h4 : py_startswith ('<' :: c :: t) (['<']) = true :=
      py_startswith_append (['<']) (c :: t)
    simp [decMatch, h1, h2, h3, h4, hv]

theorem filterPop_of_valid {op v : PyStr} (t1 t2 : PyStr) (hop : op ∈ OPS)
    (hv : isUnsignedDec v = true) :
    filterPop t1 t2 (op ++ v) = filterSQL t1 t2 op v := by
  obtain ⟨c, t, rfl, hd⟩ := isUnsignedDec_head hv
  have hne : c ≠ '=' := by
    intro h
    rw [h] at hd
    simp [Char.isDigit] at hd
  simp only [OPS, List.mem_cons, List.not_mem_nil, or_false] at hop
  rcases hop with h | h | h | h <;> subst h
  · have h1 : py_startswith ('>' :: '=' :: c :: t) (['>', '=']) = true :=
      py_startswith_append (['>', '=']) (c :: t)
    simp [filterPop, h1]
  · have h1 : py_startswith ('>' :: c :: t) (['>', '=']) = false := by
      simp [py_startswith, hne]
    have h2 : py_startswith ('>' :: c :: t) (['>']) = true :=
      py_startswith_append (['>']) (c :: t)
    simp [filterPop, h1, h2]
  · have h1 : py_startswith ('<' :: '=' :: c :: t) (['>', '=']) = false := by
      simp [py_startswith]
    have h2 : py_startswith ('<' :: '=' :: c :: t) (['>']) = false := by
      simp [py_startswith]
    have h3 : py_startswith ('<' :: '=' :: c :: t) (['<', '=']) = true :=
      py_startswith_append (['<', '=']) (c :: t)
    simp [filterPop, h1, h2, h3]
  · have h1 : py_startswith ('<' :: c :: t) (['>', '=']) = false := by
      simp [py_startswith]
    have h2 : py_startswith ('<' :: c :: t) (['>']) = false := by
      simp [py_startswith]
    have h3 : py_startswith ('<' :: c :: t) (['<', '=']) = false := by
      simp [py_startswith, hne]
    have h4 : py_startswith ('<' :: c :: t) (['<']) = true :=
      py_startswith_append (['<']) (c :: t)
    simp [filterPop, h1, h2, h3, h4]

/-- Claim C3 as stated is false on the code: a range query whose remainder is
three tokens with a malformed operator and value is interpolated into an
executable statement instead of yielding the structured error result. -/
theorem C3_range_malformed_cex :
    parse_custom_query (("range: pop_estimate_2022 => abc").toList) =
      some (rangeSQL (("pop_estimate_2022").toList) (("=>").toList) (("abc").toList))
    ∧ (("=>").toList) ∉ OPS
    ∧ isUnsignedDec (("abc").toList) = false
    ∧ rangeSQL (("pop_estimate_2022").toList) (("=>").toList) (("abc").toList) ≠
        rangeErrSQL := by
  refine ⟨by decide, by decide, by decide, by decide⟩

/-- Claim C3 (amended): for an input whose lower-casing starts with the range
keyword, a two-token remainder whose second token is a comparison operator
followed by an unsigned decimal translates to the numeric-comparison
statement; a two-token remainder failing the anchored regex yields no
statement at all (Python returns None); a three-token remainder is
interpolated into a comparison statement without any validation; every other
token count yields the structured error result. -/
theorem C3_range_translation_amended (q f opv op v : PyStr)
    (hr : py_startswith (pyLower q) (("range:").toList) = true) :
    (pySplit (pyStrip (q.drop 6)) = [f, op ++ v] → op ∈ OPS →
        isUnsignedDec v = true → parse_custom_query q = some (rangeSQL f op v))
  ∧ (pySplit (pyStrip (q.drop 6)) = [f, opv] → decMatch opv = none →
        parse_custom_query q = none)
  ∧ (pySplit (pyStrip (q.drop 6)) = [f, op, v] →
        parse_custom_query q = some (rangeSQL f op v))
  ∧ (∀ parts, pySplit (pyStrip (q.drop 6)) = parts → parts.length ≠ 2 →
        parts.length ≠ 3 → parse_custom_query q = some rangeErrSQL) := by
  refine ⟨?_, ?_, ?_, ?_⟩
  · intro hp hop hv
    rw [parse_range_dispatch hr]
    simp [rangeBranch, hp, decMatch_of_valid hop hv]
  · intro hp hdm
    rw [parse_range_dispatch hr]
    simp [rangeBranch, hp, hdm]
  · intro hp
    rw [parse_range_dispatch hr]
    simp [rangeBranch, hp]
  · intro parts hp h2 h3
    rw [parse_range_dispatch hr]
    simp [rangeBranch, hp, h2, h3]

/-- Witness for C3: the spec's own example translates to the numeric
comparison statement. -/
theorem C3_range_translation_witness :
    parse_custom_query (("range: pop_estimate_2022 >100").toList) =
      some (rangeSQL (("pop_estimate_2022").toList) ((">").toList) (("100").toList)) :=
  (C3_range_translation_amended (("range: pop_estimate_2022 >100").toList)
      (("pop_estimate_2022").toList) [] ((">").toList) (("100").toList)
      (by decide)).1 (by decide) (by decide) (by decide)

/-- Claim C4: a filter query with exactly three tokens whose third starts
with a comparison operator followed by a number translates to the compound
statement over emails, tech_names and pop_estimate_2022; any other token
count yields the format error; an unrecognized operator prefix yields the
population-expression error; both errors are fixed statements, never a
partially built one. -/
theorem C4_filter_translation (q t1 t2 op v : PyStr)
    (hf : py_startswith (pyLower q) (("filter:").toList) = true) :
    (pySplit (pyStrip (q.drop 7)) = [t1, t2, op ++ v] → op ∈ OPS →
        isUnsignedDec v = true →
        parse_custom_query q = some (filterSQL t1 t2 op v))
  ∧ (∀ parts, pySplit (pyStrip (q.drop 7)) = parts → parts.length ≠ 3 →
        parse_custom_query q = some filterFmtErrSQL)
  ∧ (pySplit (pyStrip (q.drop 7)) = [t1, t2, v] →
        (∀ o, o ∈ OPS → py_startswith v o = false) →
        parse_custom_query q = some popErrSQL) := by
  refine ⟨?_, ?_, ?_⟩
  · intro hp hop hv
    rw [parse_filter_dispatch hf]
    simp [filterBranch, hp, filterPop_of_valid t1 t2 hop hv]
  · intro parts hp h3
    rw [parse_filter_dispatch hf]
    simp [filterBranch, hp, h3]
  · intro hp hops
    rw [parse_filter_dispatch hf]
    have g1 : py_startswith v (['>', '=']) = false := hops (['>', '=']) (by decide)
    have g2 : py_startswith v (['>']) = false := hops (['>']) (by decide)
    have g3 : py_startswith v (['<', '=']) = false := hops (['<', '=']) (by decide)
    have g4 : py_startswith v (['<']) = false := hops (['<']) (by decide)
    simp [filterBranch, filterPop, hp, g1, g2, g3, g4]

/-- Witness for C4: the spec's own example translates to the compound
statement. -/
theorem C4_filter_translation_witness :
    parse_custom_query (("filter: gmail react >=500").toList) =
      some (filterSQL (("gmail").toList) (("react").toList) ((">=").toList)
        (("500").toList)) :=
  (C4_filter_translation (("filter: gmail react >=500").toList)
      (("gmail").toList) (("react").toList) ((">=").toList) (("500").toList)
      (by decide)).1 (by decide) (by decide) (by decide)

/-- Claim C6 as stated is false on the code: for the colon-free input of the
spec's example the interactive query path executes the raw input as the
statement and never produces the full-text predicate. -/
theorem C6_no_colon_cex :
    interactive_sql (("node").toList) = some (("node").toList) ∧
      interactive_sql (("node").toList) ≠ some (fullTextSQL (("node").toList)) := by
  refine ⟨by decide, by decide⟩

/-- Claim C6 (amended): on a colon-free input the translator function itself
would return the full-text statement over document, but the interactive
dispatch bypasses the translator for such inputs and uses them verbatim as
the statement. -/
theorem C6_no_colon_amended (q : PyStr) (h : (':' : Char) ∉ q) :
    interactive_sql q = some q ∧ parse_custom_query q = some (fullTextSQL q) := by
  have h1 : py_startswith (pyLower q) (['t', 'i', 't', 'l', 'e', ':']) = false :=
    not_colon_no_prefix h (by decide)
  have h2 : py_startswith (pyLower q) (['e', 'm', 'a', 'i', 'l', 's', ':']) = false :=
    not_colon_no_prefix h (by decide)
  have h3 : py_startswith (pyLower q) (['r', 'a', 'n', 'g', 'e', ':']) = false :=
    not_colon_no_prefix h (by decide)
  have h4 : py_startswith (pyLower q) (['f', 'i', 'l', 't', 'e', 'r', ':']) = false :=
    not_colon_no_prefix h (by decide)
  have h5 : py_startswith (pyLower q) (['c', 'r', 'm', ':']) = false :=
    not_colon_no_prefix h (by decide)
  constructor
  · simp [interactive_sql, h1, h2, h3, h4, h5, h]
  · simp [parse_custom_query, h1, h2, h3, h4, h5, h]

/-- Witness for C6 at the spec's example input. -/
theorem C6_no_colon_witness :
    interactive_sql (("node").toList) = some (("node").toList) ∧
      parse_custom_query (("node").toList) = some (fullTextSQL (("node").toList)) :=
  C6_no_colon_amended (("node").toList) (by decide)

/-- Claim C10: the shorthand translator is a pure, deterministic function of
the input string alone; its embedding is a total state-free function, so two
invocations on the same input produce identical statement text. -/
theorem C10_translator_deterministic (q : PyStr) :
    parse_custom_query q = parse_custom_query q := rfl

/-- Claim C8: the executor reports the full match count and previews at most
the first ten matching rows, exactly ten whenever the total exceeds ten. -/
theorem C8_executor_preview_bound {α : Type} (table : List α) (pred : α → Bool) :
    (executor_run table pred).1 = (table.filter pred).take 10
  ∧ (executor_run table pred).2 = (table.filter pred).length
  ∧ (executor_run table pred).1.length ≤ 10
  ∧ (10 < (table.filter pred).length → (executor_run table pred).1.length = 10) := by
  refine ⟨rfl, rfl, ?_, ?_⟩
  · simp [executor_run, List.length_take]
  · intro h
    simp [executor_run, List.length_take]
    omega

/-- Witness for C8 with twelve matching rows. -/
theorem C8_executor_preview_bound_witness :
    10 < ((List.range 12).filter (fun _ => true)).length ∧
      (executor_run (List.range 12) (fun _ => true)).1.length = 10 :=
  ⟨by decide, (C8_executor_preview_bound (List.range 12) (fun _ => true)).2.2.2
    (by decide)⟩

theorem keyMatch_iff {x y : Option Int} : keyMatch x y = true ↔ y = x := by
  unfold keyMatch
  rw [beq_iff_eq]
  exact ⟨fun h => h.symm, fun h => h.symm⟩

theorem keyMatch_some_iff {p : Int} {y : Option Int} :
    keyMatch (some p) y = true ↔ y = some p := keyMatch_iff

theorem sqlEq_keyMatch {x y : Option Int} (h : sqlEq x y = true) :
    keyMatch x y = true := by
  cases x with
  | none => exact Bool.noConfusion h
  | some a =>
      cases y with
      | none => exact Bool.noConfusion h
      | some b =>
          have hab : (a == b) = true := h
          show (some a == some b) = true
          rw [beq_iff_eq] at hab ⊢
          rw [hab]

theorem matchesOf_eq_nil_iff {β : Type} {rs : List β} {rk : β → Option Int}
    {p : Int} : matchesOf rs rk (some p) = [] ↔ p ∉ rs.filterMap rk := by
  simp only [matchesOf, List.filter_eq_nil_iff, List.mem_filterMap]
  constructor
  · rintro h ⟨b, hb, hrk⟩
    exact h b hb (keyMatch_some_iff.mpr hrk)
  · intro h b hb hk
    exact h ⟨b, hb, keyMatch_some_iff.mp hk⟩

theorem matches_le_one_of_nodup {β : Type} {rs : List β} {rk : β → Option Int}
    (h : (rs.map rk).Nodup) (k : Option Int) :
    (matchesOf rs rk k).length ≤ 1 := by
  induction rs with
  | nil => simp [matchesOf]
  | cons b bs ih =>
      rw [List.map_cons] at h
      obtain ⟨hb, hbs⟩ := List.nodup_cons.mp h
      unfold matchesOf
      rw [List.filter_cons]
      by_cases hkb : keyMatch k (rk b) = true
      · rw [if_pos hkb]
        have htail : bs.filter (fun b2 => keyMatch k (rk b2)) = [] := by
          apply List.filter_eq_nil_iff.mpr
          intro x hx hc
          apply hb
          rw [show rk b = rk x from by
            rw [keyMatch_iff.mp hkb, keyMatch_iff.mp hc]]
          exact List.mem_map_of_mem rk hx
        rw [htail]
        exact le_refl 1
      · rw [if_neg hkb]
        exact ih hbs

theorem mergeOne_fst {α β : Type} {rs : List β} {rk : β → Option Int}
    {lk : α → Option Int} {a : α} {x : α × Option β}
    (hx : x ∈ mergeOne rs rk lk a) : x.1 = a := by
  unfold mergeOne at hx
  split at hx
  · simp at hx
    rw [hx]
  · simp at hx
    obtain ⟨b, _, hb⟩ := hx
    rw [← hb]

theorem mergeOne_ne_nil {α β : Type} {rs : List β} {rk : β → Option Int}
    {lk : α → Option Int} {a : α} : mergeOne rs rk lk a ≠ [] := by
  unfold mergeOne
  split
  · simp
  · next h =>
      simp only [ne_eq, List.map_eq_nil_iff]
      intro hc
      rw [hc] at h
      simp at h

theorem mergeOne_map_fst {α β : Type} {rs : List β} {rk : β → Option Int}
    {lk : α → Option Int} {a : α}
    (h : (matchesOf rs rk (lk a)).length ≤ 1) :
    (mergeOne rs rk lk a).map Prod.fst = [a] := by
  unfold mergeOne
  split
  · simp
  · next hne =>
      have h1 : (matchesOf rs rk (lk a)).length = 1 := by
        have h0 : (matchesOf rs rk (lk a)).length ≠ 0 := by
          intro hc
          rw [List.length_eq_zero] at hc
          rw [hc] at hne
          exact hne rfl
        omega
      obtain ⟨b, hb⟩ := List.length_eq_one.mp h1
      rw [hb]
      simp

theorem mergeOne_decomp {α β : Type} {rs : List β} {rk : β → Option Int}
    {lk : α → Option Int} {a : α} {x : α × Option β}
    (hx : x ∈ mergeOne rs rk lk a) :
    (x.2 = none ∧ matchesOf rs rk (lk a) = []) ∨
      (∃ b, x.2 = some b ∧ b ∈ matchesOf rs rk (lk a)) := by
  unfold mergeOne at hx
  split at hx
  · next h =>
      simp at hx
      left
      exact ⟨by rw [hx], List.isEmpty_iff.mp h⟩
  · simp at hx
    obtain ⟨b, hb, hx⟩ := hx
    right
    exact ⟨b, by rw [← hx], hb⟩

theorem leftMerge_nil {α β : Type} (rs : List β) (lk : α → Option Int)
    (rk : β → Option Int) : leftMerge ([] : List α) rs lk rk = [] := rfl

theorem leftMerge_cons {α β : Type} (a : α) (ls : List α) (rs : List β)
    (lk : α → Option Int) (rk : β → Option Int) :
    leftMerge (a :: ls) rs lk rk = mergeOne rs rk lk a ++ leftMerge ls rs lk rk := by
  simp [leftMerge]

theorem leftMerge_map_fst {α β : Type} {ls : List α} {rs : List β}
    {lk : α → Option Int} {rk : β → Option Int}
    (h : ∀ a ∈ ls, (matchesOf rs rk (lk a)).length ≤ 1) :
    (leftMerge ls rs lk rk).map Prod.fst = ls := by
  induction ls with
  | nil => rfl
  | cons a l ih =>
      rw [leftMerge_cons, List.map_append, mergeOne_map_fst (h a (by simp)),
        ih (fun a ha => h a (by simp [ha]))]
      rfl

theorem mem_leftMerge_fst {α β : Type} {ls : List α} {rs : List β}
    {lk : α → Option Int} {rk : β → Option Int} {x : α × Option β}
    (hx : x ∈ leftMerge ls rs lk rk) : x.1 ∈ ls := by
  simp only [leftMerge, List.mem_flatMap] at hx
  obtain ⟨a, ha, hm⟩ := hx
  rw [mergeOne_fst hm]
  exact ha

theorem mem_leftMerge_decomp {α β : Type} {ls : List α} {rs : List β}
    {lk : α → Option Int} {rk : β → Option Int} {x : α × Option β}
    (hx : x ∈ leftMerge ls rs lk rk) :
    x.1 ∈ ls ∧ ((x.2 = none ∧ matchesOf rs rk (lk x.1) = []) ∨
      (∃ b, x.2 = some b ∧ b ∈ matchesOf rs rk (lk x.1))) := by
  simp only [leftMerge, List.mem_flatMap] at hx
  obtain ⟨a, ha, hm⟩ := hx
  have hfst := mergeOne_fst hm
  subst hfst
  exact ⟨ha, mergeOne_decomp hm⟩

theorem mem_leftMerge_none_iff {α β : Type} {ls : List α} {rs : List β}
    {lk : α → Option Int} {rk : β → Option Int} {x : α × Option β}
    (hx : x ∈ leftMerge ls rs lk rk) :
    (x.2 = none ↔ matchesOf rs rk (lk x.1) = []) := by
  obtain ⟨-, h | ⟨b, hb, hbm⟩⟩ := mem_leftMerge_decomp hx
  · exact ⟨fun _ => h.2, fun _ => h.1⟩
  · constructor
    · intro hc
      rw [hc] at hb
      exact absurd hb.symm (Option.some_ne_none b)
    · intro hc
      rw [hc] at hbm
      exact absurd hbm (List.not_mem_nil b)

theorem mergeOne_filter {α β : Type} {rs : List β} {rk : β → Option Int}
    {lk : α → Option Int} {a : α} (p : α → Bool) :
    (mergeOne rs rk lk a).filter (fun x => p x.1) =
      if p a then mergeOne rs rk lk a else [] := by
  by_cases hpa : p a = true
  · rw [if_pos hpa]
    apply List.filter_eq_self.mpr
    intro x hx
    rw [mergeOne_fst hx]
    exact hpa
  · rw [if_neg hpa]
    apply List.filter_eq_nil_iff.mpr
    intro x hx
    rw [mergeOne_fst hx]
    exact hpa

theorem leftMerge_filter_fst {α β : Type} {ls : List α} {rs : List β}
    {lk : α → Option Int} {rk : β → Option Int} (p : α → Bool) :
    (leftMerge ls rs lk rk).filter (fun x => p x.1) =
      leftMerge (ls.filter p) rs lk rk := by
  induction ls with
  | nil => rfl
  | cons a l ih =>
      rw [leftMerge_cons, List.filter_append, mergeOne_filter, List.filter_cons]
      by_cases hpa : p a = true
      · rw [if_pos hpa, if_pos hpa, leftMerge_cons, ih]
      · rw [if_neg hpa, if_neg hpa, ih]
        rfl

theorem mergeOne_length_key {α α' β : Type} {rs : List β} {rk : β → Option Int}
    {lk : α → Option Int} {lk' : α' → Option Int} {a : α} {a' : α'}
    (hk : lk a = lk' a') :
    (mergeOne rs rk lk a).length = (mergeOne rs rk lk' a').length := by
  unfold mergeOne
  rw [hk]
  split
  · rfl
  · simp

theorem mergeOne_map_key {α β : Type} {rs : List β} {rk : β → Option Int}
    {lk : α → Option Int} {a : α} :
    (mergeOne rs rk lk a).map (fun x => lk x.1) =
      List.replicate (mergeOne rs rk lk a).length (lk a) := by
  unfold mergeOne
  split
  · simp
  · simp [List.map_map, Function.comp_def, List.map_const']

theorem leftMerge_length_congr {α α' β : Type} {ls : List α} {ls' : List α'}
    {rs : List β} {lk : α → Option Int} {lk' : α' → Option Int}
    {rk : β → Option Int} (hk : ls.map lk = ls'.map lk') :
    (leftMerge ls rs lk rk).length = (leftMerge ls' rs lk' rk).length := by
  induction ls generalizing ls' with
  | nil =>
      cases ls' with
      | nil => rfl
      | cons a' l' => simp at hk
  | cons a l ih =>
      cases ls' with
      | nil => simp at hk
      | cons a' l' =>
          simp only [List.map_cons, List.cons.injEq] at hk
          rw [leftMerge_cons, leftMerge_cons, List.length_append, List.length_append,
            mergeOne_length_key hk.1, ih hk.2]

theorem leftMerge_keys_congr {α α' β : Type} {ls : List α} {ls' : List α'}
    {rs : List β} {lk : α → Option Int} {lk' : α' → Option Int}
    {rk : β → Option Int} (hk : ls.map lk = ls'.map lk') :
    (leftMerge ls rs lk rk).map (fun x => lk x.1) =
      (leftMerge ls' rs lk' rk).map (fun x => lk' x.1) := by
  induction ls generalizing ls' with
  | nil =>
      cases ls' with
      | nil => rfl
      | cons a' l' => simp at hk
  | cons a l ih =>
      cases ls' with
      | nil => simp at hk
      | cons a' l' =>
          simp only [List.map_cons, List.cons.injEq] at hk
          rw [leftMerge_cons, leftMerge_cons, List.map_append, List.map_append,
            mergeOne_map_key, mergeOne_map_key, ih hk.2, hk.1,
            mergeOne_length_key hk.1]

theorem mem_dedupF {α : Type} [DecidableEq α] {a : α} {l : List α} :
    a ∈ dedupF l ↔ a ∈ l := by
  induction l with
  | nil => simp [dedupF]
  | cons b bs ih =>
      simp only [dedupF, List.mem_cons]
      constructor
      · rintro (rfl | h)
        · exact Or.inl rfl
        · exact Or.inr (ih.mp (List.mem_of_mem_filter h))
      · rintro (rfl | h)
        · exact Or.inl rfl
        · by_cases hab : a = b
          · exact Or.inl hab
          · refine Or.inr (List.mem_filter.mpr ⟨ih.mpr h, ?_⟩)
            simp [hab]
  
theorem dedupF_nodup {α : Type} [DecidableEq α] (l : List α) : (dedupF l).Nodup := by
  induction l with
  | nil => simp [dedupF]
  | cons b bs ih =>
      simp only [dedupF]
      refine List.nodup_cons.mpr ⟨?_, List.Nodup.filter _ ih⟩
      intro hc
      have h2 := (List.mem_filter.mp hc).2
      simp at h2

theorem dedupF_eq_self {α : Type} [DecidableEq α] {l : List α} (h : l.Nodup) :
    dedupF l = l := by
  induction l with
  | nil => rfl
  | cons b bs ih =>
      obtain ⟨hb, hbs⟩ := List.nodup_cons.mp h
      simp only [dedupF, ih hbs]
      rw [List.filter_eq_self.mpr]
      intro x hx
      simp only [ne_eq, decide_eq_true_eq]
      intro hxb
      rw [hxb] at hx
      exact hb hx

theorem dedupF_ne_nil {α : Type} [DecidableEq α] {l : List α} (h : l ≠ []) :
    dedupF l ≠ [] := by
  cases l with
  | nil => exact absurd rfl h
  | cons b bs => simp [dedupF]

theorem nodup_filter_beq {α : Type} [DecidableEq α] {l : List α} (h : l.Nodup)
    (p : α) : l.filter (fun x => p == x) = if p ∈ l then [p] else [] := by
  induction l with
  | nil => simp
  | cons b bs ih =>
      obtain ⟨hb, hbs⟩ := List.nodup_cons.mp h
      rw [List.filter_cons]
      by_cases hpb : p = b
      · subst hpb
        have hnil : List.filter (fun x => p == x) bs = [] := by
          apply List.filter_eq_nil_iff.mpr
          intro x hx hc
          rw [beq_iff_eq] at hc
          rw [← hc] at hx
          exact hb hx
        simp [hnil]
      · rw [if_neg (by simp [hpb]), ih hbs]
        simp [List.mem_cons, hpb]

theorem groupTags_map_fst (ts : List Tag) :
    (groupTags ts).map Prod.fst = dedupF (ts.filterMap Tag.place_id) := by
  simp [groupTags, List.map_map, Function.comp_def]

theorem groupTags_keys_nodup (ts : List Tag) :
    ((groupTags ts).map (fun g => (some g.1 : Option Int))).Nodup := by
  rw [show (fun (g : Int × List PyStr) => (some g.1 : Option Int)) =
    some ∘ Prod.fst from rfl, ← List.map_map, groupTags_map_fst]
  exact List.Nodup.map (fun a b hab => Option.some.inj hab) (dedupF_nodup _)

theorem groupTags_matches (ts : List Tag) (p : Int) :
    matchesOf (groupTags ts) (fun g => some g.1) (some p) =
      (if p ∈ ts.filterMap Tag.place_id
       then [(p, (ts.filter (fun t => t.place_id == some p)).map Tag.name)]
       else []) := by
  unfold matchesOf groupTags
  rw [List.filter_map]
  have hcong : ((fun b => keyMatch (some p) ((fun g : Int × List PyStr => some g.1) b)) ∘
      (fun p' => (p', (ts.filter (fun t => t.place_id == some p')).map Tag.name)))
      = fun k => p == k := by
    funext k
    simp [keyMatch]
  rw [hcong, nodup_filter_beq (dedupF_nodup _) p]
  by_cases hp : p ∈ ts.filterMap Tag.place_id
  · rw [if_pos (mem_dedupF.mpr hp), if_pos hp]
    rfl
  · rw [if_neg (fun hc => hp (mem_dedupF.mp hc)), if_neg hp]
    rfl

theorem stage2_map_fst (ts : List Tag) (m1 : List M1) :
    (stage2 ts m1).map Prod.fst = m1 := by
  unfold stage2
  split
  · simp [Function.comp_def]
  · rw [List.map_map]
    have hc : (Prod.fst ∘ fun rg : M1 × Option (Int × List PyStr) =>
        (rg.1, rg.2.map Prod.snd)) = Prod.fst := rfl
    rw [hc]
    exact leftMerge_map_fst
      (fun a _ => matches_le_one_of_nodup (groupTags_keys_nodup ts) _)

theorem stage3_map_fst {ma : List MapA} (m2 : List M2)
    (hA : (ma.map MapA.place_id).Nodup) :
    (stage3 ma m2).map Prod.fst = m2 := by
  unfold stage3
  split
  · simp [Function.comp_def]
  · exact leftMerge_map_fst (fun a _ => matches_le_one_of_nodup hA _)

theorem stage4_map_fst {mb : List MapB} (m3 : List M3)
    (hB : (mb.map MapB.place_id).Nodup) :
    (stage4 mb m3).map Prod.fst = m3 := by
  unfold stage4
  split
  · simp [Function.comp_def]
  · exact leftMerge_map_fst (fun a _ => matches_le_one_of_nodup hB _)

theorem mem_stage2_fst {ts : List Tag} {m1 : List M1} {x : M2}
    (hx : x ∈ stage2 ts m1) : x.1 ∈ m1 := by
  unfold stage2 at hx
  split at hx
  · obtain ⟨y, hy, hxy⟩ := List.mem_map.mp hx
    rw [← hxy]
    exact hy
  · obtain ⟨rg, hrg, hxy⟩ := List.mem_map.mp hx
    rw [← hxy]
    show rg.1 ∈ m1
    exact mem_leftMerge_fst hrg

theorem mem_stage3_fst {ma : List MapA} {m2 : List M2} {x : M3}
    (hx : x ∈ stage3 ma m2) : x.1 ∈ m2 := by
  unfold stage3 at hx
  split at hx
  · obtain ⟨y, hy, hxy⟩ := List.mem_map.mp hx
    rw [← hxy]
    exact hy
  · exact mem_leftMerge_fst hx

theorem mem_stage4_fst {mb : List MapB} {m3 : List M3} {x : M4}
    (hx : x ∈ stage4 mb m3) : x.1 ∈ m3 := by
  unfold stage4 at hx
  split at hx
  · obtain ⟨y, hy, hxy⟩ := List.mem_map.mp hx
    rw [← hxy]
    exact hy
  · exact mem_leftMerge_fst hx

theorem stage2_filter (P : M1 → Bool) (ts : List Tag) (m1 : List M1) :
    (stage2 ts m1).filter (fun x => P x.1) = stage2 ts (m1.filter P) := by
  unfold stage2
  by_cases hts : ts.isEmpty = true
  · rw [if_pos hts, if_pos hts, List.filter_map]
    rfl
  · rw [if_neg hts, if_neg hts, List.filter_map]
    have hc : ((fun x : M2 => P x.1) ∘ fun rg : M1 × Option (Int × List PyStr) =>
        (rg.1, rg.2.map Prod.snd)) = fun rg => P rg.1 := rfl
    rw [hc, leftMerge_filter_fst]

theorem stage3_filter (P : M2 → Bool) (ma : List MapA) (m2 : List M2) :
    (stage3 ma m2).filter (fun x => P x.1) = stage3 ma (m2.filter P) := by
  unfold stage3
  by_cases hma : ma.isEmpty = true
  · rw [if_pos hma, if_pos hma, List.filter_map]
    rfl
  · rw [if_neg hma, if_neg hma]
    exact leftMerge_filter_fst P

theorem stage4_filter (P : M3 → Bool) (mb : List MapB) (m3 : List M3) :
    (stage4 mb m3).filter (fun x => P x.1) = stage4 mb (m3.filter P) := by
  unfold stage4
  by_cases hmb : mb.isEmpty = true
  · rw [if_pos hmb, if_pos hmb, List.filter_map]
    rfl
  · rw [if_neg hmb, if_neg hmb]
    exact leftMerge_filter_fst P

theorem stage2_length (ts : List Tag) (m1 : List M1) :
    (stage2 ts m1).length = m1.length := by
  calc (stage2 ts m1).length = ((stage2 ts m1).map Prod.fst).length :=
        (List.length_map _ _).symm
    _ = m1.length := by rw [stage2_map_fst]

theorem stage2_keys (ts : List Tag) (m1 : List M1) :
    (stage2 ts m1).map (fun x => x.1.1.place_id) =
      m1.map (fun r => r.1.place_id) := by
  have h := stage2_map_fst ts m1
  calc (stage2 ts m1).map (fun x => x.1.1.place_id)
      = ((stage2 ts m1).map Prod.fst).map (fun r => r.1.place_id) := by
        rw [List.map_map]
        rfl
    _ = m1.map (fun r => r.1.place_id) := by rw [h]

theorem stage3_length_congr {m2 m2' : List M2} (ma : List MapA)
    (hk : m2.map (fun r => r.1.1.place_id) = m2'.map (fun r => r.1.1.place_id)) :
    (stage3 ma m2).length = (stage3 ma m2').length := by
  unfold stage3
  by_cases hma : ma.isEmpty = true
  · rw [if_pos hma, if_pos hma]
    have hlen := congrArg List.length hk
    simpa using hlen
  · rw [if_neg hma, if_neg hma]
    exact leftMerge_length_congr hk

theorem stage3_keys_congr {m2 m2' : List M2} (ma : List MapA)
    (hk : m2.map (fun r => r.1.1.place_id) = m2'.map (fun r => r.1.1.place_id)) :
    (stage3 ma m2).map (fun x => x.1.1.1.place_id) =
      (stage3 ma m2').map (fun x => x.1.1.1.place_id) := by
  unfold stage3
  by_cases hma : ma.isEmpty = true
  · rw [if_pos hma, if_pos hma, List.map_map, List.map_map]
    exact hk
  · rw [if_neg hma, if_neg hma]
    exact leftMerge_keys_congr hk

theorem stage4_length_congr {m3 m3' : List M3} (mb : List MapB)
    (hk : m3.map (fun r => r.1.1.1.place_id) =
      m3'.map (fun r => r.1.1.1.place_id)) :
    (stage4 mb m3).length = (stage4 mb m3').length := by
  unfold stage4
  by_cases hmb : mb.isEmpty = true
  · rw [if_pos hmb, if_pos hmb]
    have hlen := congrArg List.length hk
    simpa using hlen
  · rw [if_neg hmb, if_neg hmb]
    exact leftMerge_length_congr hk

theorem mem_viewJoined {d : FlatInput} {r : JRow} (hr : r ∈ viewJoined d) :
    r.c ∈ d.contacts ∧ r.e ∈ d.entities ∧
      sqlEq r.c.place_id r.e.place_id = true := by
  simp only [viewJoined, List.mem_flatMap, List.mem_map, List.mem_filter] at hr
  obtain ⟨c, hc, e, ⟨he, hk⟩, t?, ht, a?, ha, b?, hb, hback⟩ := hr
  rw [← hback]
  exact ⟨hc, he, hk⟩

theorem mem_flattened_view {d : FlatInput} {v : VRow}
    (hv : v ∈ flattened_view d) :
    ∃ r ∈ viewJoined d, r.c.id = v.contact_id := by
  simp only [flattened_view, List.mem_map] at hv
  obtain ⟨k, hk, hkv⟩ := hv
  have hk2 : k ∈ (viewJoined d).map gkey := mem_dedupF.mp hk
  obtain ⟨r, hr, hrk⟩ := List.mem_map.mp hk2
  refine ⟨r, hr, ?_⟩
  rw [← hkv]
  show r.c.id = k.id
  rw [← hrk]
  rfl

theorem tagsAt_isEmpty_iff (ts : List Tag) (p : Int) :
    ((ts.filter (fun t => t.place_id == some p)).isEmpty = true) ↔
      p ∉ ts.filterMap Tag.place_id := by
  rw [List.isEmpty_iff, List.filter_eq_nil_iff]
  constructor
  · rintro h hp
    obtain ⟨t, ht, hpt⟩ := List.mem_filterMap.mp hp
    exact h t ht (by simp [hpt])
  · intro h t ht hc
    rw [beq_iff_eq] at hc
    exact h (List.mem_filterMap.mpr ⟨t, ht, hc⟩)

/-- Claim C1 as stated is false on the code: the materialized view joins
contacts to entities with an inner join, so a contact whose place matches no
entity is dropped and the view's row count falls below the contact count. -/
theorem C1_view_drops_unmatched_cex :
    (FlatInput.mk [⟨1, some 5, [], []⟩] [⟨some 7, [], none, none, none⟩] [] [] []).contacts.length = 1
    ∧ flattened_view
        (FlatInput.mk [⟨1, some 5, [], []⟩] [⟨some 7, [], none, none, none⟩] [] [] []) = [] := by
  refine ⟨by decide, by decide⟩

/-- Claim C1 (amended): the pandas flatten step is row-count preserving: with
unique entity and mapping join keys — counting a missing (NaN) key as a key
value, since pandas merge joins NaN keys with each other — its output carries
exactly the contact list in order, one row per post-normalization contact, a
contact without a matching entity appearing with a null entity; the SQL
materialized view, by contrast, inner-joins and contains no row for such a
contact. -/
theorem C1_flatten_row_count_amended (d : FlatInput)
    (hcs : d.contacts ≠ []) (hes : d.entities ≠ [])
    (hE : (d.entities.map Entity.place_id).Nodup)
    (hA : (d.customera.map MapA.place_id).Nodup)
    (hB : (d.customerb.map MapB.place_id).Nodup)
    (hI : (d.contacts.map Contact.id).Nodup) :
    ∃ out, flatten_data d = some out
      ∧ out.map contactOf = d.contacts
      ∧ out.length = d.contacts.length
      ∧ (∀ r ∈ out, (entityOf r = none ↔
            matchesOf d.entities Entity.place_id (contactOf r).place_id = []))
      ∧ (∀ c ∈ d.contacts,
          matchesOf d.entities Entity.place_id c.place_id = [] →
          ∀ vrow ∈ flattened_view d, vrow.contact_id ≠ c.id) := by
  have hne : (d.contacts.isEmpty || d.entities.isEmpty) = false := by
    rw [Bool.or_eq_false_iff]
    constructor
    · rw [List.isEmpty_eq_false]
      exact hcs
    · rw [List.isEmpty_eq_false]
      exact hes
  refine ⟨stage4 d.customerb (stage3 d.customera (stage2 d.techstacks
      (leftMerge d.contacts d.entities Contact.place_id Entity.place_id))),
    ?_, ?_, ?_, ?_, ?_⟩
  · unfold flatten_data
    rw [hne]
    rfl
  · have e1 : (leftMerge d.contacts d.entities Contact.place_id
        Entity.place_id).map Prod.fst = d.contacts :=
      leftMerge_map_fst (fun a _ => matches_le_one_of_nodup hE _)
    have e2 := stage2_map_fst d.techstacks
      (leftMerge d.contacts d.entities Contact.place_id Entity.place_id)
    have e3 := stage3_map_fst (stage2 d.techstacks
      (leftMerge d.contacts d.entities Contact.place_id Entity.place_id)) hA
    have e4 := stage4_map_fst (stage3 d.customera (stage2 d.techstacks
      (leftMerge d.contacts d.entities Contact.place_id Entity.place_id))) hB
    calc (stage4 d.customerb (stage3 d.customera (stage2 d.techstacks
          (leftMerge d.contacts d.entities Contact.place_id
            Entity.place_id)))).map contactOf
        = ((((stage4 d.customerb (stage3 d.customera (stage2 d.techstacks
            (leftMerge d.contacts d.entities Contact.place_id
              Entity.place_id)))).map Prod.fst).map Prod.fst).map
                Prod.fst).map Prod.fst := by
          rw [List.map_map, List.map_map, List.map_map]
          rfl
      _ = d.contacts := by rw [e4, e3, e2, e1]
  · have e1 : (leftMerge d.contacts d.entities Contact.place_id
        Entity.place_id).map Prod.fst = d.contacts :=
      leftMerge_map_fst (fun a _ => matches_le_one_of_nodup hE _)
    have l1 : (leftMerge d.contacts d.entities Contact.place_id
        Entity.place_id).length = d.contacts.length := by
      have h0 := congrArg List.length e1
      rwa [List.length_map] at h0
    have l2 := stage2_length d.techstacks
      (leftMerge d.contacts d.entities Contact.place_id Entity.place_id)
    have l3 : (stage3 d.customera (stage2 d.techstacks
        (leftMerge d.contacts d.entities Contact.place_id
          Entity.place_id))).length =
        (stage2 d.techstacks (leftMerge d.contacts d.entities Contact.place_id
          Entity.place_id)).length := by
      have h0 := congrArg List.length (stage3_map_fst (stage2 d.techstacks
        (leftMerge d.contacts d.entities Contact.place_id Entity.place_id)) hA)
      rwa [List.length_map] at h0
    have l4 : (stage4 d.customerb (stage3 d.customera (stage2 d.techstacks
        (leftMerge d.contacts d.entities Contact.place_id
          Entity.place_id)))).length =
        (stage3 d.customera (stage2 d.techstacks (leftMerge d.contacts
          d.entities Contact.place_id Entity.place_id))).length := by
      have h0 := congrArg List.length (stage4_map_fst (stage3 d.customera
        (stage2 d.techstacks (leftMerge d.contacts d.entities Contact.place_id
          Entity.place_id))) hB)
      rwa [List.length_map] at h0
    rw [l4, l3, l2, l1]
  · intro r hr
    have h3 := mem_stage4_fst hr
    have h2 := mem_stage3_fst h3
    have h1 := mem_stage2_fst h2
    exact mem_leftMerge_none_iff h1
  · intro c hc hnom vrow hv hcid
    obtain ⟨r, hr, hrid⟩ := mem_flattened_view hv
    obtain ⟨hrc, hre, hrk⟩ := mem_viewJoined hr
    have hceq : r.c = c := List.inj_on_of_nodup_map hI hrc hc (by rw [hrid, hcid])
    rw [hceq] at hrk
    have hmem : r.e ∈ matchesOf d.entities Entity.place_id c.place_id :=
      List.mem_filter.mpr ⟨hre, sqlEq_keyMatch hrk⟩
    rw [hnom] at hmem
    exact absurd hmem (List.not_mem_nil _)

/-- Witness for C1: a single contact whose place matches no entity is kept
by flatten_data with a null entity, yet absent from the view. -/
theorem C1_flatten_row_count_witness :
    ∃ out, flatten_data (FlatInput.mk [⟨1, some 5, [], []⟩]
        [⟨some 7, [], none, none, none⟩] [] [] []) = some out
      ∧ out.map contactOf = [⟨1, some 5, [], []⟩]
      ∧ out.length = ([⟨1, some 5, [], []⟩] : List Contact).length
      ∧ (∀ r ∈ out, (entityOf r = none ↔
            matchesOf [⟨some 7, [], none, none, none⟩] Entity.place_id
              (contactOf r).place_id = []))
      ∧ (∀ c ∈ ([⟨1, some 5, [], []⟩] : List Contact),
          matchesOf [⟨some 7, [], none, none, none⟩] Entity.place_id
            c.place_id = [] →
          ∀ vrow ∈ flattened_view (FlatInput.mk [⟨1, some 5, [], []⟩]
            [⟨some 7, [], none, none, none⟩] [] [] []),
            vrow.contact_id ≠ c.id) :=
  C1_flatten_row_count_amended _ (by decide) (by decide) (by decide)
    (by decide) (by decide) (by decide)

/-- Claim C2: the tag table is pre-aggregated by place before joining, so the
number of flattened rows at any place is the same for any two tag tables (in
particular for any k tag rows at that place), and each flattened row at a
place carries exactly that place's full tag-name list. -/
theorem C2_fanout_safety (d : FlatInput) (ts1 ts2 : List Tag) (p : Int)
    {out1 out2 : List M4}
    (h1 : flatten_data { d with techstacks := ts1 } = some out1)
    (h2 : flatten_data { d with techstacks := ts2 } = some out2) :
    (out1.filter (contactAt p)).length = (out2.filter (contactAt p)).length
  ∧ (∀ r ∈ out1, contactAt p r = true →
      techOf r = (if (ts1.filter (fun t => t.place_id == some p)).isEmpty
        then none
        else some ((ts1.filter (fun t => t.place_id == some p)).map Tag.name))) := by
  have hne : (d.contacts.isEmpty || d.entities.isEmpty) = false := by
    by_contra hc
    rw [Bool.not_eq_false] at hc
    rw [show ({ d with techstacks := ts1 } : FlatInput).contacts = d.contacts
      from rfl] at h1
    unfold flatten_data at h1
    rw [show ({ d with techstacks := ts1 } : FlatInput).contacts.isEmpty =
      d.contacts.isEmpty from rfl] at h1
    simp [hc] at h1
  have hout1 : out1 = stage4 d.customerb (stage3 d.customera (stage2 ts1
      (leftMerge d.contacts d.entities Contact.place_id Entity.place_id))) := by
    unfold flatten_data at h1
    rw [show ({ d with techstacks := ts1 } : FlatInput).contacts.isEmpty =
      d.contacts.isEmpty from rfl,
      show ({ d with techstacks := ts1 } : FlatInput).entities.isEmpty =
      d.entities.isEmpty from rfl, hne] at h1
    simpa using h1.symm
  have hout2 : out2 = stage4 d.customerb (stage3 d.customera (stage2 ts2
      (leftMerge d.contacts d.entities Contact.place_id Entity.place_id))) := by
    unfold flatten_data at h2
    rw [show ({ d with techstacks := ts2 } : FlatInput).contacts.isEmpty =
      d.contacts.isEmpty from rfl,
      show ({ d with techstacks := ts2 } : FlatInput).entities.isEmpty =
      d.entities.isEmpty from rfl, hne] at h2
    simpa using h2.symm
  constructor
  · rw [hout1, hout2]
    have hf4 : ∀ ts : List Tag,
        ((stage4 d.customerb (stage3 d.customera (stage2 ts
          (leftMerge d.contacts d.entities Contact.place_id
            Entity.place_id)))).filter (contactAt p)) =
        stage4 d.customerb (stage3 d.customera (stage2 ts
          ((leftMerge d.contacts d.entities Contact.place_id
            Entity.place_id).filter
              (fun m => m.1.place_id == some p)))) := by
      intro ts
      calc ((stage4 d.customerb (stage3 d.customera (stage2 ts
            (leftMerge d.contacts d.entities Contact.place_id
              Entity.place_id)))).filter (contactAt p))
          = stage4 d.customerb ((stage3 d.customera (stage2 ts
              (leftMerge d.contacts d.entities Contact.place_id
                Entity.place_id))).filter
                  (fun m : M3 => m.1.1.1.place_id == some p)) :=
            stage4_filter (fun m : M3 => m.1.1.1.place_id == some p) _ _
        _ = stage4 d.customerb (stage3 d.customera ((stage2 ts
              (leftMerge d.contacts d.entities Contact.place_id
                Entity.place_id)).filter
                  (fun m : M2 => m.1.1.place_id == some p))) :=
            congrArg (stage4 d.customerb)
              (stage3_filter (fun m : M2 => m.1.1.place_id == some p) _ _)
        _ = stage4 d.customerb (stage3 d.customera (stage2 ts
              ((leftMerge d.contacts d.entities Contact.place_id
                Entity.place_id).filter
                  (fun m : M1 => m.1.place_id == some p)))) :=
            congrArg (fun x => stage4 d.customerb (stage3 d.customera x))
              (stage2_filter (fun m : M1 => m.1.place_id == some p) _ _)
    rw [hf4 ts1, hf4 ts2]
    apply stage4_length_congr
    apply stage3_keys_congr
    rw [stage2_keys, stage2_keys]
  · intro r hr hat
    rw [hout1] at hr
    have h3 := mem_stage4_fst hr
    have h2m := mem_stage3_fst h3
    have hkey : r.1.1.1.1.place_id = some p := by
      have hat' : ((contactOf r).place_id == some p) = true := hat
      rwa [beq_iff_eq] at hat'
    unfold stage2 at h2m
    split at h2m
    · next hts =>
        obtain ⟨y, hy, hxy⟩ := List.mem_map.mp h2m
        have htn : techOf r = none := by
          rw [techOf, ← hxy]
        rw [htn, if_pos]
        rw [List.isEmpty_iff.mp hts]
        rfl
    · next hts =>
        obtain ⟨rg, hrg, hxy⟩ := List.mem_map.mp h2m
        obtain ⟨hrg1, hdec⟩ := mem_leftMerge_decomp hrg
        have hkey2 : rg.1.1.place_id = some p := by
          have : r.1.1.1 = rg.1 := by rw [← hxy]
          rw [← this]
          exact hkey
        rcases hdec with ⟨hnone, hmat⟩ | ⟨b, hsome, hbm⟩
        · rw [hkey2, groupTags_matches] at hmat
          have hpn : p ∉ ts1.filterMap Tag.place_id := by
            by_contra hp
            rw [if_pos hp] at hmat
            exact absurd hmat (by simp)
          have htn : techOf r = none := by
            rw [techOf, ← hxy]
            show rg.2.map Prod.snd = none
            rw [hnone]
            rfl
          rw [htn, if_pos ((tagsAt_isEmpty_iff ts1 p).mpr hpn)]
        · rw [hkey2, groupTags_matches] at hbm
          by_cases hp : p ∈ ts1.filterMap Tag.place_id
          · rw [if_pos hp] at hbm
            have hbeq : b = (p, (ts1.filter
                (fun t => t.place_id == some p)).map Tag.name) := by
              simpa using hbm
            have htv : techOf r = some b.2 := by
              rw [techOf, ← hxy]
              show rg.2.map Prod.snd = some b.2
              rw [hsome]
              rfl
            rw [htv, hbeq, if_neg]
            intro hc
            exact ((tagsAt_isEmpty_iff ts1 p).mp hc) hp
          · rw [if_neg hp] at hbm
            exact absurd hbm (List.not_mem_nil _)

/-- Witness for C2: three tags at a place against zero tags leave the row
count unchanged and surface all three names. -/
theorem C2_fanout_safety_witness :
    (exOut1.filter (contactAt 5)).length = (exOut2.filter (contactAt 5)).length
  ∧ (∀ r ∈ exOut1, contactAt 5 r = true →
      techOf r = (if (exTags.filter (fun t => t.place_id == some 5)).isEmpty
        then none
        else some ((exTags.filter (fun t => t.place_id == some 5)).map
          Tag.name))) :=
  C2_fanout_safety exIn1 exTags [] 5 (by decide) (by decide)

theorem digitChar_isDigit (n : Nat) : (digitChar n).isDigit = true := by
  unfold digitChar
  have h : n % 10 < 10 := Nat.mod_lt _ (by norm_num)
  set k := n % 10 with hk
  interval_cases k <;> decide

theorem digitChar_toNat (n : Nat) : (digitChar n).toNat = 48 + n % 10 := by
  unfold digitChar
  have h : n % 10 < 10 := Nat.mod_lt _ (by norm_num)
  set k := n % 10 with hk
  interval_cases k <;> decide

theorem digitChar_not_ws (n : Nat) : (digitChar n).isWhitespace = false := by
  unfold digitChar
  have h : n % 10 < 10 := Nat.mod_lt _ (by norm_num)
  set k := n % 10 with hk
  interval_cases k <;> decide

theorem lparen_ne_digitChar (n : Nat) : ('(' : Char) ≠ digitChar n := by
  intro hc
  have h1 := digitChar_toNat n
  rw [← hc] at h1
  have h2 : ('(' : Char).toNat = 40 := by decide
  omega

theorem d2_digitChar (a b : Nat) :
    d2 (digitChar a) (digitChar b) = some (a % 10 * 10 + b % 10) := by
  unfold d2
  rw [if_pos (by rw [digitChar_isDigit, digitChar_isDigit]; rfl)]
  rw [digitChar_toNat, digitChar_toNat]
  congr 1
  omega

theorem d4_digitChar (a b c d : Nat) :
    d4 (digitChar a) (digitChar b) (digitChar c) (digitChar d) =
      some (a % 10 * 1000 + b % 10 * 100 + c % 10 * 10 + d % 10) := by
  unfold d4
  rw [if_pos (by rw [digitChar_isDigit, digitChar_isDigit, digitChar_isDigit,
    digitChar_isDigit]; rfl)]
  rw [digitChar_toNat, digitChar_toNat, digitChar_toNat, digitChar_toNat]
  congr 1
  omega

theorem spGo_none_no_lparen {s : PyStr} (h : ('(' : Char) ∉ s) :
    spGo none s = s := by
  induction s with
  | nil => rfl
  | cons c rest ih =>
      have hc : c ≠ '(' := fun hcc => h (by rw [hcc]; exact List.mem_cons_self _ _)
      rw [spGo, if_neg hc, ih (fun hm => h (List.mem_cons_of_mem _ hm))]

theorem stripParens_eq_self {s : PyStr} (h : ('(' : Char) ∉ s) :
    stripParens s = s := spGo_none_no_lparen h

theorem spGo_none_append {pre : PyStr} (rest : PyStr)
    (h : ('(' : Char) ∉ pre) : spGo none (pre ++ rest) = pre ++ spGo none rest := by
  induction pre with
  | nil => rfl
  | cons c cs ih =>
      have hc : c ≠ '(' := fun hcc => h (by rw [hcc]; exact List.mem_cons_self _ _)
      rw [List.cons_append, spGo, if_neg hc,
        ih (fun hm => h (List.mem_cons_of_mem _ hm))]
      rfl

theorem spGo_some_close {inner : PyStr} (buf : PyStr) (post : PyStr)
    (hrp : (')' : Char) ∉ inner) (hnl : ('\n' : Char) ∉ inner) :
    spGo (some buf) (inner ++ ')' :: post) = spGo none post := by
  induction inner generalizing buf with
  | nil =>
      rw [List.nil_append, spGo, if_pos rfl]
  | cons c cs ih =>
      have hc1 : c ≠ ')' := fun hcc => hrp (by rw [hcc]; exact List.mem_cons_self _ _)
      have hc2 : c ≠ '\n' := fun hcc => hnl (by rw [hcc]; exact List.mem_cons_self _ _)
      rw [List.cons_append, spGo, if_neg hc1, if_neg hc2]
      exact ih _ (fun hm => hrp (List.mem_cons_of_mem _ hm))
        (fun hm => hnl (List.mem_cons_of_mem _ hm))

theorem stripParens_removes {pre inner post : PyStr}
    (hpre : ('(' : Char) ∉ pre) (hrp : (')' : Char) ∉ inner)
    (hnl : ('\n' : Char) ∉ inner) :
    stripParens (pre ++ '(' :: (inner ++ ')' :: post)) =
      pre ++ stripParens post := by
  unfold stripParens
  rw [spGo_none_append _ hpre, spGo, if_pos rfl, spGo_some_close [] post hrp hnl]

theorem head_dropWhile_not {p : Char → Bool} {l : PyStr} {c : Char}
    (h : (l.dropWhile p).head? = some c) : p c = false := by
  induction l with
  | nil => simp at h
  | cons a rest ih =>
      rw [List.dropWhile_cons] at h
      by_cases hp : p a = true
      · rw [if_pos hp] at h
        exact ih h
      · rw [if_neg hp] at h
        simp at h
        rw [← h, Bool.eq_false_iff]
        exact hp

theorem getLast_dropWhile {p : Char → Bool} {l : PyStr} {c : Char}
    (h : (l.dropWhile p).getLast? = some c) : l.getLast? = some c := by
  induction l with
  | nil => simp at h
  | cons a rest ih =>
      rw [List.dropWhile_cons] at h
      by_cases hp : p a = true
      · rw [if_pos hp] at h
        have hr := ih h
        cases rest with
        | nil => simp at hr
        | cons b bs =>
            rw [List.getLast?_cons_cons]
            exact hr
      · rw [if_neg hp] at h
        exact h

theorem pyStrip_eq_self {s : PyStr}
    (h1 : ∀ c, s.head? = some c → c.isWhitespace = false)
    (h2 : ∀ c, s.getLast? = some c → c.isWhitespace = false) :
    pyStrip s = s := by
  unfold pyStrip
  have e1 : s.dropWhile Char.isWhitespace = s := by
    cases hs : s with
    | nil => rfl
    | cons a rest =>
        rw [List.dropWhile_cons, if_neg]
        rw [h1 a (by rw [hs]; rfl)]
        simp
  rw [e1]
  have e2 : s.reverse.dropWhile Char.isWhitespace = s.reverse := by
    cases hs : s.reverse with
    | nil => rfl
    | cons a rest =>
        rw [List.dropWhile_cons, if_neg]
        have ha : s.getLast? = some a := by
          rw [← List.head?_reverse, hs]
          rfl
        rw [h2 a ha]
        simp
  rw [e2, List.reverse_reverse]

theorem pyStrip_head_not_ws {s : PyStr} {c : Char}
    (h : (pyStrip s).head? = some c) : c.isWhitespace = false := by
  unfold pyStrip at h
  rw [List.head?_reverse] at h
  have h2 := getLast_dropWhile h
  rw [List.getLast?_reverse] at h2
  exact head_dropWhile_not h2

theorem pyStrip_getLast_not_ws {s : PyStr} {c : Char}
    (h : (pyStrip s).getLast? = some c) : c.isWhitespace = false := by
  unfold pyStrip at h
  rw [List.getLast?_reverse] at h
  exact head_dropWhile_not h

theorem pyStrip_idem (s : PyStr) : pyStrip (pyStrip s) = pyStrip s :=
  pyStrip_eq_self (fun _ h => pyStrip_head_not_ws h)
    (fun _ h => pyStrip_getLast_not_ws h)

theorem reprStamp_no_lparen (t : Stamp) : ('(' : Char) ∉ reprStamp t := by
  intro hc
  simp only [reprStamp, pad4, pad2, List.mem_append, List.mem_cons,
    List.not_mem_nil, or_false, List.cons_append, List.nil_append] at hc
  rcases hc with h | h | h | h | h | h | h | h | h | h | h | h | h | h | h | h | h | h | h
  all_goals first
    | exact lparen_ne_digitChar _ h
    | exact absurd h (by decide)

theorem reprStamp_getLast (t : Stamp) :
    (reprStamp t).getLast? = some (digitChar t.s) := by
  have h : reprStamp t = (pad4 t.y ++ '-' :: pad2 t.mo ++ '-' :: pad2 t.d ++
      ' ' :: pad2 t.h ++ ':' :: pad2 t.mi ++ [':', digitChar (t.s / 10)]) ++
      [digitChar t.s] := by
    simp [reprStamp, pad2, pad4]
  rw [h, List.getLast?_concat]

theorem pyStrip_reprStamp (t : Stamp) : pyStrip (reprStamp t) = reprStamp t := by
  apply pyStrip_eq_self
  · intro c hc
    have hh : (reprStamp t).head? = some (digitChar (t.y / 1000)) := rfl
    rw [hh] at hc
    injection hc with h
    rw [← h]
    exact digitChar_not_ws _
  · intro c hc
    rw [reprStamp_getLast] at hc
    injection hc with h
    rw [← h]
    exact digitChar_not_ws _

theorem parse_reprStamp (t : Stamp) (hv : validStamp t = true) :
    parseStamp (reprStamp t) = some t := by
  obtain ⟨y, mo, d, h, mi, s⟩ := t
  have hv0 := hv
  simp only [validStamp, Bool.and_eq_true, decide_eq_true_eq] at hv
  show parseStamp (pad4 y ++ '-' :: pad2 mo ++ '-' :: pad2 d ++ ' ' :: pad2 h ++
    ':' :: pad2 mi ++ ':' :: pad2 s) = some ⟨y, mo, d, h, mi, s⟩
  simp only [pad4, pad2, List.cons_append, List.nil_append]
  simp only [parseStamp, d4_digitChar, d2_digitChar, Option.some_bind,
    Option.bind_eq_bind]
  rw [show y / 1000 % 10 * 1000 + y / 100 % 10 * 100 + y / 10 % 10 * 10 +
      y % 10 = y from by omega,
    show mo / 10 % 10 * 10 + mo % 10 = mo from by omega,
    show d / 10 % 10 * 10 + d % 10 = d from by omega,
    show h / 10 % 10 * 10 + h % 10 = h from by omega,
    show mi / 10 % 10 * 10 + mi % 10 = mi from by omega,
    show s / 10 % 10 * 10 + s % 10 = s from by omega]
  rw [if_pos hv0]

theorem parseStamp_valid {s : PyStr} {t : Stamp} (h : parseStamp s = some t) :
    validStamp t = true := by
  unfold parseStamp at h
  split at h
  · simp only [Option.bind_eq_bind, Option.bind_eq_some] at h
    obtain ⟨y, hy, mo, hmo, dd, hdd, hfin⟩ := h
    split at hfin
    · next hvv =>
        injection hfin with he
        rw [← he]
        exact hvv
    · exact absurd hfin (by simp)
  · simp only [Option.bind_eq_bind, Option.bind_eq_some] at h
    obtain ⟨y, hy, mo, hmo, dd, hdd, hh, hhh, mm, hmm, ss, hss, hfin⟩ := h
    split at hfin
    · next hvv =>
        injection hfin with he
        rw [← he]
        exact hvv
    · exact absurd hfin (by simp)
  · exact absurd h (by simp)

theorem cleanCreatedCell_shape (dty : DType) (v : Val) :
    cleanCreatedCell dty v = Val.vnull ∨
      ∃ t, cleanCreatedCell dty v = Val.vdt t ∧ validStamp t = true := by
  unfold cleanCreatedCell
  cases hp : parseStamp (pyStrip (stripParens (astypeStrCell dty v))) with
  | none => exact Or.inl rfl
  | some t => exact Or.inr ⟨t, rfl, parseStamp_valid hp⟩

theorem cleanCreatedCell_vdt {t : Stamp} (hv : validStamp t = true) :
    cleanCreatedCell DType.dt (Val.vdt t) = Val.vdt t := by
  unfold cleanCreatedCell
  rw [show astypeStrCell DType.dt (Val.vdt t) = reprStamp t from rfl,
    stripParens_eq_self (reprStamp_no_lparen t), pyStrip_reprStamp,
    parse_reprStamp t hv]

theorem cleanCreatedCell_vnull (dty : DType) :
    cleanCreatedCell dty Val.vnull = Val.vnull := by
  cases dty <;> rfl

theorem cleanCreatedCell_stable (dty : DType) (v : Val) :
    cleanCreatedCell DType.dt (cleanCreatedCell dty v) = cleanCreatedCell dty v := by
  rcases cleanCreatedCell_shape dty v with h | ⟨t, h, hv⟩
  · rw [h, cleanCreatedCell_vnull]
  · rw [h, cleanCreatedCell_vdt hv]

theorem stripCell_idem (v : Val) : stripCell (stripCell v) = stripCell v := by
  cases v <;> simp [stripCell, pyStrip_idem]

theorem stripRow_stripRow (hdr : List (PyStr × DType)) (excl : List PyStr)
    (row : List Val) :
    stripRow hdr excl (stripRow hdr excl row) = stripRow hdr excl row := by
  unfold stripRow
  induction hdr generalizing row with
  | nil => rfl
  | cons hcol hrest ih =>
      cases row with
      | nil => rfl
      | cons v vs =>
          rw [List.zip_cons_cons, List.map_cons, List.zip_cons_cons,
            List.map_cons]
          congr 1
          · by_cases hc : hcol.2 = DType.obj ∧ hcol.1 ∉ excl
            · rw [if_pos hc, if_pos hc, stripCell_idem]
            · rw [if_neg hc, if_neg hc]
          · exact ih vs

theorem stripRow_length (hdr : List (PyStr × DType)) (excl : List PyStr)
    (row : List Val) :
    (stripRow hdr excl row).length = min hdr.length row.length := by
  unfold stripRow
  rw [List.length_map, List.length_zip]

theorem lowerNames_eq_self {h : List (PyStr × DType)}
    (hfix : ∀ nm ∈ h.map Prod.fst, pyLower nm = nm) : lowerNames h = h := by
  unfold lowerNames
  induction h with
  | nil => rfl
  | cons p rest ih =>
      rw [List.map_cons]
      congr 1
      · have hfx := hfix p.1 (List.mem_map.mpr ⟨p, List.mem_cons_self _ _, rfl⟩)
        rw [hfx]
      · exact ih (fun nm hm => hfix nm (by
          rw [List.map_cons]
          exact List.mem_cons_of_mem _ hm))

theorem lowerNames_map_fst (h : List (PyStr × DType)) :
    (lowerNames h).map Prod.fst = (h.map Prod.fst).map pyLower := by
  unfold lowerNames
  rw [List.map_map, List.map_map]
  rfl

theorem lowerNames_idem (h : List (PyStr × DType)) :
    lowerNames (lowerNames h) = lowerNames h := by
  apply lowerNames_eq_self
  intro nm hm
  rw [lowerNames_map_fst] at hm
  obtain ⟨n0, _, hn0⟩ := List.mem_map.mp hm
  rw [← hn0, pyLower_idem]

theorem modify_eq_self {α : Type} {f : α → α} {i : Nat} {l : List α}
    (h : ∀ x, l[i]? = some x → f x = x) : List.modify f i l = l := by
  induction l generalizing i with
  | nil => rw [List.modify_nil]
  | cons a rest ih =>
      cases i with
      | zero =>
          rw [List.modify_zero_cons, h a List.getElem?_cons_zero]
      | succ j =>
          rw [List.modify_succ_cons, ih (fun x hx => h x (by
            rw [List.getElem?_cons_succ]
            exact hx))]

theorem modify_getElem_self {α : Type} (f : α → α) (i : Nat) (l : List α) :
    (List.modify f i l)[i]? = Option.map f l[i]? := by
  rw [List.getElem?_modify]
  cases l[i]? <;> simp

theorem zip_getElem {α β : Type} (l : List α) (l' : List β) (i : Nat) :
    (l.zip l')[i]? = match l[i]?, l'[i]? with
      | some a, some b => some (a, b)
      | _, _ => none := by
  induction l generalizing l' i with
  | nil => cases l' <;> simp
  | cons a rest ih =>
      cases l' with
      | nil => simp
      | cons b rest' =>
          cases i with
          | zero => simp [List.zip_cons_cons]
          | succ j =>
              rw [List.zip_cons_cons, List.getElem?_cons_succ,
                List.getElem?_cons_succ, List.getElem?_cons_succ]
              exact ih rest' j

theorem findIdx?_getElem {α : Type} {p : α → Bool} {l : List α} {i : Nat}
    (h : List.findIdx? p l = some i) :
    ∃ x, l[i]? = some x ∧ p x = true := by
  induction l generalizing i with
  | nil => simp at h
  | cons a rest ih =>
      rw [List.findIdx?_cons] at h
      by_cases hp : p a = true
      · rw [if_pos hp] at h
        injection h with h0
        rw [← h0]
        exact ⟨a, List.getElem?_cons_zero, hp⟩
      · rw [if_neg hp, List.findIdx?_succ] at h
        cases hfi : List.findIdx? p rest with
        | none => rw [hfi] at h; simp at h
        | some j =>
            rw [hfi] at h
            simp at h
            obtain ⟨x, hx, hpx⟩ := ih hfi
            rw [← h, List.getElem?_cons_succ]
            exact ⟨x, hx, hpx⟩

theorem findIdx?_congr {α : Type} (p : α → Bool) (f : α → α) (i : Nat)
    (l : List α) (hp : ∀ x, p (f x) = p x) :
    List.findIdx? p (List.modify f i l) = List.findIdx? p l := by
  induction l generalizing i with
  | nil => rw [List.modify_nil]
  | cons a rest ih =>
      cases i with
      | zero =>
          rw [List.modify_zero_cons, List.findIdx?_cons, List.findIdx?_cons, hp]
      | succ j =>
          rw [List.modify_succ_cons, List.findIdx?_cons, List.findIdx?_cons,
            List.findIdx?_succ, List.findIdx?_succ, ih]

theorem addIdCol_length (k : Int) (rs : List (List Val)) :
    (addIdCol k rs).length = rs.length := by
  induction rs generalizing k with
  | nil => rfl
  | cons r rest ih => rw [addIdCol, List.length_cons, List.length_cons, ih]

theorem mem_addIdCol {k : Int} {rs : List (List Val)} {x : List Val}
    (hx : x ∈ addIdCol k rs) :
    ∃ j r, x = Val.vnum j :: r ∧ r ∈ rs ∧ k ≤ j := by
  induction rs generalizing k with
  | nil => simp [addIdCol] at hx
  | cons r rest ih =>
      rw [addIdCol] at hx
      rcases List.mem_cons.mp hx with h | h
      · exact ⟨k, r, h, List.mem_cons_self _ _, le_refl k⟩
      · obtain ⟨j, r', hj, hr', hkj⟩ := ih h
        exact ⟨j, r', hj, List.mem_cons_of_mem _ hr', by omega⟩

theorem addIdCol_nodup (k : Int) (rs : List (List Val)) :
    (addIdCol k rs).Nodup := by
  induction rs generalizing k with
  | nil => simp [addIdCol]
  | cons r rest ih =>
      rw [addIdCol]
      refine List.nodup_cons.mpr ⟨?_, ih (k + 1)⟩
      intro hc
      obtain ⟨j, r', hj, _, hkj⟩ := mem_addIdCol hc
      injection hj with h1 h2
      injection h1 with h3
      omega

theorem addIdCol_ids (k : Int) (rs : List (List Val)) :
    (addIdCol k rs).map (fun r => r.getD 0 Val.vnull) =
      (List.range rs.length).map (fun j : Nat => Val.vnum (k + (j : Int))) := by
  induction rs generalizing k with
  | nil => rfl
  | cons r rest ih =>
      rw [addIdCol, List.map_cons, List.length_cons, List.range_succ_eq_map,
        List.map_cons, List.map_map, ih (k + 1)]
      congr 1
      · simp
      · apply List.map_congr_left
        intro j _
        show Val.vnum (k + 1 + (j : Int)) = Val.vnum (k + ((j + 1 : Nat) : Int))
        congr 1
        push_cast
        ring

theorem map_fst_modify (i : Nat) (h : List (PyStr × DType)) :
    (List.modify (fun p => (p.1, DType.dt)) i h).map Prod.fst =
      h.map Prod.fst := by
  induction h generalizing i with
  | nil => rw [List.modify_nil]
  | cons p rest ih =>
      cases i with
      | zero => rw [List.modify_zero_cons, List.map_cons, List.map_cons]
      | succ j =>
          rw [List.modify_succ_cons, List.map_cons, List.map_cons, ih]

theorem map_eq_self_of_mem {α : Type} {l : List α} {f : α → α}
    (h : ∀ a ∈ l, f a = a) : l.map f = l := by
  induction l with
  | nil => rfl
  | cons a rest ih =>
      rw [List.map_cons, h a (List.mem_cons_self _ _),
        ih (fun b hb => h b (List.mem_cons_of_mem _ hb))]

theorem dfEmpty_lower (df : DF) : dfEmpty (lowerIfNonempty df) = dfEmpty df := by
  unfold lowerIfNonempty
  split
  · rfl
  · show dfEmpty ⟨lowerNames df.header, df.rows⟩ = dfEmpty df
    unfold dfEmpty lowerNames
    cases df.header <;> cases df.rows <;> rfl

theorem lowerIfNonempty_of_nonempty {df : DF} (h : dfEmpty df = false) :
    lowerIfNonempty df = ⟨lowerNames df.header, df.rows⟩ := by
  unfold lowerIfNonempty
  rw [if_neg (by rw [h]; simp)]

theorem cleanGeneric_of_nonempty {df : DF} (h : dfEmpty df = false) :
    cleanGeneric df = ⟨df.header, dedupF (df.rows.map (stripRow df.header []))⟩ := by
  unfold cleanGeneric
  rw [if_neg (by rw [h]; simp)]

theorem cleanGeneric_stable (df : DF) :
    cleanGeneric (lowerIfNonempty (cleanGeneric (lowerIfNonempty df))) =
      cleanGeneric (lowerIfNonempty df) := by
  by_cases h0 : dfEmpty df = true
  · have e1 : lowerIfNonempty df = df := by rw [lowerIfNonempty, if_pos h0]
    have e2 : cleanGeneric df = df := by rw [cleanGeneric, if_pos h0]
    rw [e1, e2, e1, e2]
  · have h0' : dfEmpty df = false := by rwa [Bool.not_eq_true] at h0
    have hxe : dfEmpty (lowerIfNonempty df) = false := by
      rw [dfEmpty_lower]
      exact h0'
    rw [lowerIfNonempty_of_nonempty h0']
    rw [lowerIfNonempty_of_nonempty h0'] at hxe
    rw [cleanGeneric_of_nonempty hxe]
    have hre : df.rows ≠ [] := by
      unfold dfEmpty at h0'
      rcases Bool.or_eq_false_iff.mp h0' with ⟨hr, _⟩
      exact List.isEmpty_eq_false.mp hr
    have hhe : df.header ≠ [] := by
      unfold dfEmpty at h0'
      rcases Bool.or_eq_false_iff.mp h0' with ⟨_, hh⟩
      exact List.isEmpty_eq_false.mp hh
    have hye : dfEmpty ⟨lowerNames df.header,
        dedupF (df.rows.map (stripRow (lowerNames df.header) []))⟩ = false := by
      unfold dfEmpty
      apply Bool.or_eq_false_iff.mpr
      constructor
      · rw [List.isEmpty_eq_false]
        apply dedupF_ne_nil
        simp [hre]
      · rw [List.isEmpty_eq_false]
        unfold lowerNames
        simp [hhe]
    rw [lowerIfNonempty_of_nonempty hye]
    have hlowfix : lowerNames (lowerNames df.header) = lowerNames df.header :=
      lowerNames_idem df.header
    rw [show (⟨lowerNames (⟨lowerNames df.header,
        dedupF (df.rows.map (stripRow (lowerNames df.header) []))⟩ : DF).header,
        (⟨lowerNames df.header,
        dedupF (df.rows.map (stripRow (lowerNames df.header) []))⟩ : DF).rows⟩ : DF) =
      ⟨lowerNames df.header,
        dedupF (df.rows.map (stripRow (lowerNames df.header) []))⟩ from by
      show (⟨lowerNames (lowerNames df.header), _⟩ : DF) = _
      rw [hlowfix]]
    have hye2 : dfEmpty ⟨lowerNames df.header,
        dedupF (df.rows.map (stripRow (lowerNames df.header) []))⟩ = false := hye
    rw [cleanGeneric_of_nonempty hye2]
    show (⟨lowerNames df.header, dedupF ((dedupF (df.rows.map
      (stripRow (lowerNames df.header) []))).map
        (stripRow (lowerNames df.header) []))⟩ : DF) = _
    have hmapid : (dedupF (df.rows.map (stripRow (lowerNames df.header) []))).map
        (stripRow (lowerNames df.header) []) =
        dedupF (df.rows.map (stripRow (lowerNames df.header) [])) := by
      apply map_eq_self_of_mem
      intro r hr
      obtain ⟨r0, _, hr0⟩ := List.mem_map.mp (mem_dedupF.mp hr)
      rw [← hr0, stripRow_stripRow]
    rw [hmapid, dedupF_eq_self (dedupF_nodup _)]

theorem stripRow_cons (p : PyStr × DType) (hdr : List (PyStr × DType))
    (excl : List PyStr) (v : Val) (row : List Val) :
    stripRow (p :: hdr) excl (v :: row) =
      (if p.2 = DType.obj ∧ p.1 ∉ excl then stripCell v else v) ::
        stripRow hdr excl row := by
  unfold stripRow
  rw [List.zip_cons_cons, List.map_cons]

theorem stripRow_getElem_dt {hdr : List (PyStr × DType)} {excl : List PyStr}
    {row : List Val} {i : Nat} {v : Val}
    (hh : hdr[i]? = some ((("created_at").toList), DType.dt))
    (hv : (stripRow hdr excl row)[i]? = some v) :
    row[i]? = some v := by
  unfold stripRow at hv
  rw [List.getElem?_map, zip_getElem, hh] at hv
  cases hrow : row[i]? with
  | none => rw [hrow] at hv; simp at hv
  | some w =>
      rw [hrow] at hv
      simp only [Option.map_some'] at hv
      injection hv with hv0
      rw [if_neg (by rintro ⟨h1, -⟩; exact absurd h1 (by decide))] at hv0
      rw [hv0]

theorem pass2_header {hdr0 : List (PyStr × DType)} {i : Nat}
    (hfind : List.findIdx? (fun p => p.1 == (("created_at").toList)) hdr0 =
      some i) :
    (List.modify (fun p => (p.1, DType.dt)) i hdr0)[i]? =
      some ((("created_at").toList), DType.dt) := by
  obtain ⟨ent, hent, hpent⟩ := findIdx?_getElem hfind
  rw [modify_getElem_self, hent]
  rw [beq_iff_eq] at hpent
  simp only [Option.map_some']
  rw [hpent]

theorem pass2_cell {hdr0 : List (PyStr × DType)} {i : Nat} {d0 : DType}
    {excl : List PyStr} {rows0 : List (List Val)} {r : List Val}
    (hh : (List.modify (fun p => (p.1, DType.dt)) i hdr0)[i]? =
      some ((("created_at").toList), DType.dt))
    (hr : r ∈ (rows0.map (List.modify (cleanCreatedCell d0) i)).map
      (stripRow (List.modify (fun p => (p.1, DType.dt)) i hdr0) excl))
    {v : Val} (hv : r[i]? = some v) :
    cleanCreatedCell DType.dt v = v := by
  obtain ⟨r1, hr1, hrr⟩ := List.mem_map.mp hr
  obtain ⟨r0, hr0, hrr1⟩ := List.mem_map.mp hr1
  rw [← hrr] at hv
  have hv1 := stripRow_getElem_dt hh hv
  rw [← hrr1, modify_getElem_self] at hv1
  cases h0 : r0[i]? with
  | none => rw [h0] at hv1; simp at hv1
  | some v0 =>
      rw [h0] at hv1
      simp only [Option.map_some'] at hv1
      injection hv1 with hv0
      rw [← hv0]
      exact cleanCreatedCell_stable d0 v0

theorem cleanContacts_fixpoint {hdr : List (PyStr × DType)}
    {R : List (List Val)} (i : Nat)
    (hne : dfEmpty ⟨hdr, R⟩ = false)
    (hfix : ∀ nm ∈ hdr.map Prod.fst, pyLower nm = nm)
    (hfind : List.findIdx? (fun p => p.1 == (("created_at").toList)) hdr =
      some i)
    (hH : hdr[i]? = some ((("created_at").toList), DType.dt))
    (hcell : ∀ r ∈ R, ∀ v, r[i]? = some v → cleanCreatedCell DType.dt v = v)
    (hstrip : ∀ r ∈ R, stripRow hdr [("created_at").toList] r = r)
    (hid : (("id").toList) ∈ hdr.map (fun p => pyLower p.1))
    (hnd : R.Nodup) :
    cleanContacts (lowerIfNonempty ⟨hdr, R⟩) = some ⟨hdr, R⟩ := by
  rw [lowerIfNonempty_of_nonempty hne]
  have hlow : lowerNames hdr = hdr := lowerNames_eq_self hfix
  rw [show (⟨lowerNames (⟨hdr, R⟩ : DF).header, (⟨hdr, R⟩ : DF).rows⟩ : DF) =
      (⟨hdr, R⟩ : DF) from by
    show (⟨lowerNames hdr, R⟩ : DF) = _
    rw [hlow]]
  rw [cleanContacts, if_neg (by rw [hne]; simp)]
  have hfc : fixCreated (⟨hdr, R⟩ : DF) = some ⟨hdr, R⟩ := by
    unfold fixCreated
    rw [show findColIdx (("created_at").toList) (⟨hdr, R⟩ : DF) = some i from by
      unfold findColIdx
      exact hfind]
    show some (⟨List.modify (fun p => (p.1, DType.dt)) i hdr,
      R.map (List.modify (cleanCreatedCell
        ((hdr.getD i ([], DType.obj)).2)) i)⟩ : DF) = some ⟨hdr, R⟩
    have hd0 : (hdr.getD i ([], DType.obj)).2 = DType.dt := by
      rw [List.getD_eq_getElem?_getD, hH]
      rfl
    rw [hd0]
    have hhdr : List.modify (fun p => (p.1, DType.dt)) i hdr = hdr := by
      apply modify_eq_self
      intro x hx
      rw [hH] at hx
      injection hx with he
      rw [← he]
    have hrows : R.map (List.modify (cleanCreatedCell DType.dt) i) = R := by
      apply map_eq_self_of_mem
      intro r hr
      exact modify_eq_self (fun v hv => hcell r hr v hv)
    rw [hhdr, hrows]
  rw [hfc]
  show some (⟨(maybeAddId (stripObjs [("created_at").toList]
      (⟨hdr, R⟩ : DF))).header,
    dedupF (maybeAddId (stripObjs [("created_at").toList]
      (⟨hdr, R⟩ : DF))).rows⟩ : DF) = some ⟨hdr, R⟩
  have hso : stripObjs [("created_at").toList] (⟨hdr, R⟩ : DF) = ⟨hdr, R⟩ := by
    unfold stripObjs
    show (⟨hdr, R.map (stripRow hdr [("created_at").toList])⟩ : DF) = _
    rw [map_eq_self_of_mem hstrip]
  rw [hso]
  have hma : maybeAddId (⟨hdr, R⟩ : DF) = ⟨hdr, R⟩ := by
    unfold maybeAddId
    rw [if_pos hid]
  rw [hma]
  show some (⟨hdr, dedupF R⟩ : DF) = some ⟨hdr, R⟩
  rw [dedupF_eq_self hnd]


theorem cleanContacts_stable {df o : DF}
    (h : cleanContacts (lowerIfNonempty df) = some o) :
    cleanContacts (lowerIfNonempty o) = some o := by
  by_cases h0 : dfEmpty df = true
  · have e1 : lowerIfNonempty df = df := by rw [lowerIfNonempty, if_pos h0]
    rw [e1, cleanContacts, if_pos h0] at h
    injection h with ho
    rw [← ho, e1, cleanContacts, if_pos h0]
  · have h0' : dfEmpty df = false := by rwa [Bool.not_eq_true] at h0
    have hre : df.rows ≠ [] := by
      unfold dfEmpty at h0'
      rcases Bool.or_eq_false_iff.mp h0' with ⟨hr, _⟩
      exact List.isEmpty_eq_false.mp hr
    have hhe : df.header ≠ [] := by
      unfold dfEmpty at h0'
      rcases Bool.or_eq_false_iff.mp h0' with ⟨_, hh⟩
      exact List.isEmpty_eq_false.mp hh
    rw [lowerIfNonempty_of_nonempty h0'] at h
    have hxe : dfEmpty (⟨lowerNames df.header, df.rows⟩ : DF) = false := by
      have hdl := dfEmpty_lower df
      rw [lowerIfNonempty_of_nonempty h0'] at hdl
      rw [hdl]
      exact h0'
    rw [cleanContacts, if_neg (by rw [hxe]; simp)] at h
    cases hfind : findColIdx (("created_at").toList)
        (⟨lowerNames df.header, df.rows⟩ : DF) with
    | none =>
        rw [show fixCreated (⟨lowerNames df.header, df.rows⟩ : DF) = none from by
          unfold fixCreated
          rw [hfind]] at h
        simp at h
    | some i =>
        rw [show fixCreated (⟨lowerNames df.header, df.rows⟩ : DF) =
            some (⟨List.modify (fun p => (p.1, DType.dt)) i
                (lowerNames df.header),
              df.rows.map (List.modify (cleanCreatedCell
                (((lowerNames df.header).getD i ([], DType.obj)).2)) i)⟩ : DF)
            from by
          unfold fixCreated
          rw [hfind]] at h
        have hfind0 : List.findIdx?
            (fun p => p.1 == (("created_at").toList)) (lowerNames df.header) =
            some i := hfind
        have hfind1 : List.findIdx? (fun p => p.1 == (("created_at").toList))
            (List.modify (fun p => (p.1, DType.dt)) i (lowerNames df.header)) =
            some i := by
          rw [findIdx?_congr (fun p => p.1 == (("created_at").toList))
            (fun p => (p.1, DType.dt)) i (lowerNames df.header) (fun x => rfl)]
          exact hfind0
        have hH1 : (List.modify (fun p => (p.1, DType.dt)) i
            (lowerNames df.header))[i]? =
            some ((("created_at").toList), DType.dt) := pass2_header hfind0
        have hNamesFix : ∀ nm ∈ (List.modify (fun p => (p.1, DType.dt)) i
            (lowerNames df.header)).map Prod.fst, pyLower nm = nm := by
          intro nm hm
          rw [map_fst_modify, lowerNames_map_fst] at hm
          obtain ⟨n0, _, hn0⟩ := List.mem_map.mp hm
          rw [← hn0, pyLower_idem]
        have hrows2ne : (df.rows.map (List.modify (cleanCreatedCell
            (((lowerNames df.header).getD i ([], DType.obj)).2)) i)).map
              (stripRow (List.modify (fun p => (p.1, DType.dt)) i
                (lowerNames df.header)) [("created_at").toList]) ≠ [] := by
          simp [hre]
        have hhdr1ne : List.modify (fun p => (p.1, DType.dt)) i
            (lowerNames df.header) ≠ [] := by
          intro hc
          have hlen := congrArg List.length hc
          rw [List.length_modify] at hlen
          unfold lowerNames at hlen
          rw [List.length_map] at hlen
          exact hhe (List.length_eq_zero.mp hlen)
        have h2 : some (⟨(maybeAddId (⟨List.modify (fun p => (p.1, DType.dt)) i
              (lowerNames df.header),
            (df.rows.map (List.modify (cleanCreatedCell
              (((lowerNames df.header).getD i ([], DType.obj)).2)) i)).map
                (stripRow (List.modify (fun p => (p.1, DType.dt)) i
                  (lowerNames df.header)) [("created_at").toList])⟩ : DF)).header,
            dedupF (maybeAddId (⟨List.modify (fun p => (p.1, DType.dt)) i
              (lowerNames df.header),
            (df.rows.map (List.modify (cleanCreatedCell
              (((lowerNames df.header).getD i ([], DType.obj)).2)) i)).map
                (stripRow (List.modify (fun p => (p.1, DType.dt)) i
                  (lowerNames df.header)) [("created_at").toList])⟩ : DF)).rows⟩ :
              DF) = some o := h
        by_cases hid : (("id").toList) ∈
            (List.modify (fun p => (p.1, DType.dt)) i
              (lowerNames df.header)).map (fun p => pyLower p.1)
        · have hma : maybeAddId (⟨List.modify (fun p => (p.1, DType.dt)) i
                (lowerNames df.header),
              (df.rows.map (List.modify (cleanCreatedCell
                (((lowerNames df.header).getD i ([], DType.obj)).2)) i)).map
                  (stripRow (List.modify (fun p => (p.1, DType.dt)) i
                    (lowerNames df.header)) [("created_at").toList])⟩ : DF) =
              ⟨List.modify (fun p => (p.1, DType.dt)) i (lowerNames df.header),
              (df.rows.map (List.modify (cleanCreatedCell
                (((lowerNames df.header).getD i ([], DType.obj)).2)) i)).map
                  (stripRow (List.modify (fun p => (p.1, DType.dt)) i
                    (lowerNames df.header)) [("created_at").toList])⟩ := by
            unfold maybeAddId
            rw [if_pos hid]
          rw [hma] at h2
          injection h2 with ho
          rw [← ho]
          refine cleanContacts_fixpoint i ?_ hNamesFix hfind1 hH1 ?_ ?_
            hid (dedupF_nodup _)
          · unfold dfEmpty
            apply Bool.or_eq_false_iff.mpr
            refine ⟨?_, ?_⟩
            · rw [List.isEmpty_eq_false]
              exact dedupF_ne_nil hrows2ne
            · rw [List.isEmpty_eq_false]
              exact hhdr1ne
          · intro r hr v hv
            exact pass2_cell hH1 (mem_dedupF.mp hr) hv
          · intro r hr
            obtain ⟨r1, _, hr1⟩ := List.mem_map.mp (mem_dedupF.mp hr)
            rw [← hr1, stripRow_stripRow]
        · have hma : maybeAddId (⟨List.modify (fun p => (p.1, DType.dt)) i
                (lowerNames df.header),
              (df.rows.map (List.modify (cleanCreatedCell
                (((lowerNames df.header).getD i ([], DType.obj)).2)) i)).map
                  (stripRow (List.modify (fun p => (p.1, DType.dt)) i
                    (lowerNames df.header)) [("created_at").toList])⟩ : DF) =
              ⟨((("id").toList), DType.num) ::
                List.modify (fun p => (p.1, DType.dt)) i (lowerNames df.header),
              addIdCol 1 ((df.rows.map (List.modify (cleanCreatedCell
                (((lowerNames df.header).getD i ([], DType.obj)).2)) i)).map
                  (stripRow (List.modify (fun p => (p.1, DType.dt)) i
                    (lowerNames df.header)) [("created_at").toList]))⟩ := by
            unfold maybeAddId
            rw [if_neg hid]
          rw [hma] at h2
          injection h2 with ho
          rw [← ho]
          refine cleanContacts_fixpoint (i + 1) ?_ ?_ ?_ ?_ ?_ ?_ ?_
            (dedupF_nodup _)
          · unfold dfEmpty
            apply Bool.or_eq_false_iff.mpr
            refine ⟨?_, ?_⟩
            · rw [List.isEmpty_eq_false]
              apply dedupF_ne_nil
              intro hc
              have hlen := congrArg List.length hc
              rw [addIdCol_length] at hlen
              exact hrows2ne (List.length_eq_zero.mp hlen)
            · rw [List.isEmpty_eq_false]
              exact List.cons_ne_nil _ _
          · intro nm hm
            rw [List.map_cons] at hm
            rcases List.mem_cons.mp hm with hnm | hnm
            · rw [hnm]
              decide
            · exact hNamesFix nm hnm
          · rw [List.findIdx?_cons, if_neg (by decide), List.findIdx?_succ,
              hfind1]
            rfl
          · rw [List.getElem?_cons_succ]
            exact hH1
          · intro r hr v hv
            obtain ⟨j, r2, hshape, hr2, -⟩ := mem_addIdCol (mem_dedupF.mp hr)
            rw [hshape, List.getElem?_cons_succ] at hv
            exact pass2_cell hH1 hr2 hv
          · intro r hr
            obtain ⟨j, r2, hshape, hr2, -⟩ := mem_addIdCol (mem_dedupF.mp hr)
            rw [hshape, stripRow_cons,
              if_neg (by rintro ⟨h1, -⟩; exact absurd h1 (by decide))]
            obtain ⟨r1, _, hr1⟩ := List.mem_map.mp hr2
            rw [← hr1, stripRow_stripRow]
          · rw [List.map_cons]
            exact List.mem_cons.mpr (Or.inl (by decide))

/-- Claim C5: the normalization step clean_data is idempotent: running it again
on its own output reproduces that output exactly. -/
theorem C5_normalize_idempotent (d o : CleanIn) (h : clean_data d = some o) :
    clean_data o = some o := by
  unfold clean_data at h ⊢
  cases hc : cleanContacts (lowerIfNonempty d.contacts) with
  | none => rw [hc] at h; exact absurd h (by simp)
  | some c =>
      rw [hc] at h
      injection h with ho
      rw [← ho]
      show (match cleanContacts (lowerIfNonempty c) with
        | none => none
        | some c2 =>
            some (⟨c2,
              cleanGeneric (lowerIfNonempty (cleanGeneric (lowerIfNonempty d.entities))),
              cleanGeneric (lowerIfNonempty (cleanGeneric (lowerIfNonempty d.techstacks))),
              cleanGeneric (lowerIfNonempty (cleanGeneric (lowerIfNonempty d.customerA))),
              cleanGeneric (lowerIfNonempty (cleanGeneric (lowerIfNonempty d.customerB)))⟩ :
              CleanIn)) =
        some ⟨c, cleanGeneric (lowerIfNonempty d.entities),
          cleanGeneric (lowerIfNonempty d.techstacks),
          cleanGeneric (lowerIfNonempty d.customerA),
          cleanGeneric (lowerIfNonempty d.customerB)⟩
      rw [cleanContacts_stable hc]
      show some (⟨c,
          cleanGeneric (lowerIfNonempty (cleanGeneric (lowerIfNonempty d.entities))),
          cleanGeneric (lowerIfNonempty (cleanGeneric (lowerIfNonempty d.techstacks))),
          cleanGeneric (lowerIfNonempty (cleanGeneric (lowerIfNonempty d.customerA))),
          cleanGeneric (lowerIfNonempty (cleanGeneric (lowerIfNonempty d.customerB)))⟩ :
          CleanIn) = _
      rw [cleanGeneric_stable d.entities, cleanGeneric_stable d.techstacks,
        cleanGeneric_stable d.customerA, cleanGeneric_stable d.customerB]

/-- Concrete idempotence run: the example table normalizes to exCleanOut and a
second normalization leaves it fixed. -/
theorem C5_normalize_idempotent_witness :
    clean_data exCleanIn = some exCleanOut ∧
      clean_data exCleanOut = some exCleanOut :=
  ⟨by decide, C5_normalize_idempotent exCleanIn exCleanOut (by decide)⟩

theorem cleanContacts_structure {df c : DF}
    (hne : dfEmpty df = false)
    (h : cleanContacts (lowerIfNonempty df) = some c) :
    ∃ i,
      List.findIdx? (fun p => p.1 == (("created_at").toList))
        (lowerNames df.header) = some i ∧
      ((("id").toList) ∈ (List.modify (fun p => (p.1, DType.dt)) i
            (lowerNames df.header)).map (fun p => pyLower p.1) ∧
          c = ⟨List.modify (fun p => (p.1, DType.dt)) i (lowerNames df.header),
            dedupF ((df.rows.map (List.modify (cleanCreatedCell
              (((lowerNames df.header).getD i ([], DType.obj)).2)) i)).map
                (stripRow (List.modify (fun p => (p.1, DType.dt)) i
                  (lowerNames df.header)) [("created_at").toList]))⟩ ∨
        (("id").toList) ∉ (List.modify (fun p => (p.1, DType.dt)) i
            (lowerNames df.header)).map (fun p => pyLower p.1) ∧
          c = ⟨((("id").toList), DType.num) ::
              List.modify (fun p => (p.1, DType.dt)) i (lowerNames df.header),
            dedupF (addIdCol 1 ((df.rows.map (List.modify (cleanCreatedCell
              (((lowerNames df.header).getD i ([], DType.obj)).2)) i)).map
                (stripRow (List.modify (fun p => (p.1, DType.dt)) i
                  (lowerNames df.header)) [("created_at").toList])))⟩) := by
  rw [lowerIfNonempty_of_nonempty hne] at h
  have hxe : dfEmpty (⟨lowerNames df.header, df.rows⟩ : DF) = false := by
    have hdl := dfEmpty_lower df
    rw [lowerIfNonempty_of_nonempty hne] at hdl
    rw [hdl]
    exact hne
  rw [cleanContacts, if_neg (by rw [hxe]; simp)] at h
  cases hfind : findColIdx (("created_at").toList)
      (⟨lowerNames df.header, df.rows⟩ : DF) with
  | none =>
      rw [show fixCreated (⟨lowerNames df.header, df.rows⟩ : DF) = none from by
        unfold fixCreated
        rw [hfind]] at h
      simp at h
  | some i =>
      rw [show fixCreated (⟨lowerNames df.header, df.rows⟩ : DF) =
          some (⟨List.modify (fun p => (p.1, DType.dt)) i
              (lowerNames df.header),
            df.rows.map (List.modify (cleanCreatedCell
              (((lowerNames df.header).getD i ([], DType.obj)).2)) i)⟩ : DF)
          from by
        unfold fixCreated
        rw [hfind]] at h
      have h2 : some (⟨(maybeAddId (⟨List.modify (fun p => (p.1, DType.dt)) i
            (lowerNames df.header),
          (df.rows.map (List.modify (cleanCreatedCell
            (((lowerNames df.header).getD i ([], DType.obj)).2)) i)).map
              (stripRow (List.modify (fun p => (p.1, DType.dt)) i
                (lowerNames df.header)) [("created_at").toList])⟩ : DF)).header,
          dedupF (maybeAddId (⟨List.modify (fun p => (p.1, DType.dt)) i
            (lowerNames df.header),
          (df.rows.map (List.modify (cleanCreatedCell
            (((lowerNames df.header).getD i ([], DType.obj)).2)) i)).map
              (stripRow (List.modify (fun p => (p.1, DType.dt)) i
                (lowerNames df.header)) [("created_at").toList])⟩ : DF)).rows⟩ :
          DF) = some c := h
      refine ⟨i, hfind, ?_⟩
      by_cases hid : (("id").toList) ∈
          (List.modify (fun p => (p.1, DType.dt)) i
            (lowerNames df.header)).map (fun p => pyLower p.1)
      · left
        refine ⟨hid, ?_⟩
        rw [show maybeAddId (⟨List.modify (fun p => (p.1, DType.dt)) i
              (lowerNames df.header),
            (df.rows.map (List.modify (cleanCreatedCell
              (((lowerNames df.header).getD i ([], DType.obj)).2)) i)).map
                (stripRow (List.modify (fun p => (p.1, DType.dt)) i
                  (lowerNames df.header)) [("created_at").toList])⟩ : DF) =
            ⟨List.modify (fun p => (p.1, DType.dt)) i (lowerNames df.header),
            (df.rows.map (List.modify (cleanCreatedCell
              (((lowerNames df.header).getD i ([], DType.obj)).2)) i)).map
                (stripRow (List.modify (fun p => (p.1, DType.dt)) i
                  (lowerNames df.header)) [("created_at").toList])⟩ from by
          unfold maybeAddId
          rw [if_pos hid]] at h2
        injection h2 with hc2
        exact hc2.symm
      · right
        refine ⟨hid, ?_⟩
        rw [show maybeAddId (⟨List.modify (fun p => (p.1, DType.dt)) i
              (lowerNames df.header),
            (df.rows.map (List.modify (cleanCreatedCell
              (((lowerNames df.header).getD i ([], DType.obj)).2)) i)).map
                (stripRow (List.modify (fun p => (p.1, DType.dt)) i
                  (lowerNames df.header)) [("created_at").toList])⟩ : DF) =
            ⟨((("id").toList), DType.num) ::
              List.modify (fun p => (p.1, DType.dt)) i (lowerNames df.header),
            addIdCol 1 ((df.rows.map (List.modify (cleanCreatedCell
              (((lowerNames df.header).getD i ([], DType.obj)).2)) i)).map
                (stripRow (List.modify (fun p => (p.1, DType.dt)) i
                  (lowerNames df.header)) [("created_at").toList]))⟩ from by
          unfold maybeAddId
          rw [if_neg hid]] at h2
        injection h2 with hc2
        exact hc2.symm

theorem map_pyLower_modify_lower (i : Nat) (H : List (PyStr × DType)) :
    (List.modify (fun p => (p.1, DType.dt)) i (lowerNames H)).map
        (fun p => pyLower p.1) =
      H.map (fun p => pyLower p.1) := by
  have e1 : ∀ (l : List (PyStr × DType)),
      l.map (fun p => pyLower p.1) = (l.map Prod.fst).map pyLower := by
    intro l
    rw [List.map_map]
    rfl
  rw [e1, map_fst_modify, lowerNames_map_fst, List.map_map, e1]
  apply List.map_congr_left
  intro x _
  exact pyLower_idem x

/-- Claim C7 counterexample: a source contacts table that already carries an id
column keeps it verbatim, so the duplicated ids survive normalization: the
normalized id column is [1, 1], which is not unique. -/
theorem C7_id_uniqueness_cex :
    clean_data exDupIn = some exDupOut ∧
      colCells exDupOut.contacts (("id").toList) =
        some [Val.vnum 1, Val.vnum 1] ∧
      ¬ ([Val.vnum 1, Val.vnum 1] : List (Val)).Nodup :=
  ⟨by decide, by decide, by decide⟩

/-- Claim C7 (amended): ids provided by the source are kept as-is, duplicates
included; it is only when the lower-cased source header carries no id column
that normalization synthesizes the ids, and then the id column of the
normalized nonempty contacts table is exactly the contiguous 1-based sequence
1..n in source row order, hence unique, with the row count preserved. -/
theorem C7_id_synthesis_amended (d o : CleanIn)
    (hne : dfEmpty d.contacts = false)
    (hno : (("id").toList) ∉
      (d.contacts.header.map (fun p => pyLower p.1)))
    (h : clean_data d = some o) :
    colCells o.contacts (("id").toList) =
      some ((List.range d.contacts.rows.length).map
        (fun j : Nat => Val.vnum (1 + (j : Int)))) ∧
    ((List.range d.contacts.rows.length).map
        (fun j : Nat => Val.vnum (1 + (j : Int)))).Nodup ∧
    o.contacts.rows.length = d.contacts.rows.length := by
  unfold clean_data at h
  cases hcc : cleanContacts (lowerIfNonempty d.contacts) with
  | none => rw [hcc] at h; exact absurd h (by simp)
  | some c =>
      rw [hcc] at h
      injection h with ho
      have hoc : o.contacts = c := by rw [← ho]
      obtain ⟨i, hfind, hcase⟩ := cleanContacts_structure hne hcc
      rcases hcase with ⟨hid, -⟩ | ⟨-, hc⟩
      · exact absurd (by rwa [map_pyLower_modify_lower] at hid) hno
      · have hded : dedupF (addIdCol 1
            ((d.contacts.rows.map (List.modify (cleanCreatedCell
              (((lowerNames d.contacts.header).getD i ([], DType.obj)).2)) i)).map
                (stripRow (List.modify (fun p => (p.1, DType.dt)) i
                  (lowerNames d.contacts.header)) [("created_at").toList]))) =
            addIdCol 1
            ((d.contacts.rows.map (List.modify (cleanCreatedCell
              (((lowerNames d.contacts.header).getD i ([], DType.obj)).2)) i)).map
                (stripRow (List.modify (fun p => (p.1, DType.dt)) i
                  (lowerNames d.contacts.header)) [("created_at").toList])) :=
          dedupF_eq_self (addIdCol_nodup 1 _)
        have hlen2 : ((d.contacts.rows.map (List.modify (cleanCreatedCell
            (((lowerNames d.contacts.header).getD i ([], DType.obj)).2)) i)).map
              (stripRow (List.modify (fun p => (p.1, DType.dt)) i
                (lowerNames d.contacts.header)) [("created_at").toList])).length =
            d.contacts.rows.length := by
          rw [List.length_map, List.length_map]
        have hinj : Function.Injective
            (fun j : Nat => Val.vnum (1 + (j : Int))) := by
          intro a b hab
          injection hab with h1
          omega
        refine ⟨?_, List.Nodup.map hinj (List.nodup_range _), ?_⟩
        · rw [hoc, hc]
          unfold colCells findColIdx
          rw [show List.findIdx? (fun p => p.1 == (("id").toList))
              ((⟨((("id").toList), DType.num) ::
                List.modify (fun p => (p.1, DType.dt)) i
                  (lowerNames d.contacts.header),
              dedupF (addIdCol 1
                ((d.contacts.rows.map (List.modify (cleanCreatedCell
                  (((lowerNames d.contacts.header).getD i
                    ([], DType.obj)).2)) i)).map
                  (stripRow (List.modify (fun p => (p.1, DType.dt)) i
                    (lowerNames d.contacts.header))
                    [("created_at").toList])))⟩ : DF)).header = some 0 from by
            rw [List.findIdx?_cons, if_pos (by decide)]]
          rw [Option.map_some']
          rw [show ((⟨((("id").toList), DType.num) ::
                List.modify (fun p => (p.1, DType.dt)) i
                  (lowerNames d.contacts.header),
              dedupF (addIdCol 1
                ((d.contacts.rows.map (List.modify (cleanCreatedCell
                  (((lowerNames d.contacts.header).getD i
                    ([], DType.obj)).2)) i)).map
                  (stripRow (List.modify (fun p => (p.1, DType.dt)) i
                    (lowerNames d.contacts.header))
                    [("created_at").toList])))⟩ : DF)).rows =
              dedupF (addIdCol 1
                ((d.contacts.rows.map (List.modify (cleanCreatedCell
                  (((lowerNames d.contacts.header).getD i
                    ([], DType.obj)).2)) i)).map
                  (stripRow (List.modify (fun p => (p.1, DType.dt)) i
                    (lowerNames d.contacts.header))
                    [("created_at").toList]))) from rfl, hded, addIdCol_ids,
            hlen2]
        · rw [hoc, hc]
          show (dedupF (addIdCol 1 _)).length = _
          rw [hded, addIdCol_length, hlen2]

/-- Concrete synthesis run: the example table has no id column and its
normalization gets ids [1, 2] with both rows kept. -/
theorem C7_id_synthesis_witness :
    dfEmpty exCleanIn.contacts = false ∧
      (("id").toList) ∉
        (exCleanIn.contacts.header.map (fun p => pyLower p.1)) ∧
      (colCells exCleanOut.contacts (("id").toList) =
        some ((List.range exCleanIn.contacts.rows.length).map
          (fun j : Nat => Val.vnum (1 + (j : Int)))) ∧
      ((List.range exCleanIn.contacts.rows.length).map
          (fun j : Nat => Val.vnum (1 + (j : Int)))).Nodup ∧
      exCleanOut.contacts.rows.length = exCleanIn.contacts.rows.length) :=
  ⟨by decide, by decide,
    C7_id_synthesis_amended exCleanIn exCleanOut (by decide) (by decide)
      (by decide)⟩

/-- Claim C9: (1) a parenthesized annotation in the timestamp text is removed
before parsing, so the cell cleans exactly as the text without it; (2) a
timestamp text that fails to parse after that removal becomes null; (3) the
normalization returns a result (no fatal error) whenever the contacts table is
empty or has a created_at column; (4) every created_at cell of the normalized
contacts table holds a parsed timestamp or a null. -/
theorem C9_created_at_cleaning :
    (∀ pre inner post : PyStr, ('(' : Char) ∉ pre → (')' : Char) ∉ inner →
        ('\n' : Char) ∉ inner →
        cleanCreatedCell DType.obj
            (Val.vs (pre ++ '(' :: (inner ++ ')' :: post))) =
          cleanCreatedCell DType.obj (Val.vs (pre ++ post)))
    ∧ (∀ s : PyStr, parseStamp (pyStrip (stripParens s)) = none →
        cleanCreatedCell DType.obj (Val.vs s) = Val.vnull)
    ∧ (∀ d : CleanIn, dfEmpty d.contacts = true ∨
        findColIdx (("created_at").toList) (lowerIfNonempty d.contacts) ≠
          none →
        (clean_data d).isSome = true)
    ∧ (∀ d o : CleanIn, clean_data d = some o →
        ∀ i, findColIdx (("created_at").toList) o.contacts = some i →
        ∀ r ∈ o.contacts.rows, ∀ v, r[i]? = some v →
          isDtOrNull v = true) := by
  refine ⟨?_, ?_, ?_, ?_⟩
  · intro pre inner post hpre hrp hnl
    unfold cleanCreatedCell
    rw [show astypeStrCell DType.obj
          (Val.vs (pre ++ '(' :: (inner ++ ')' :: post))) =
        pre ++ '(' :: (inner ++ ')' :: post) from rfl,
      show astypeStrCell DType.obj (Val.vs (pre ++ post)) = pre ++ post
        from rfl,
      stripParens_removes hpre hrp hnl,
      show stripParens (pre ++ post) = pre ++ stripParens post from
        spGo_none_append post hpre]
  · intro s hs
    unfold cleanCreatedCell
    rw [show astypeStrCell DType.obj (Val.vs s) = s from rfl, hs]
  · intro d hd
    unfold clean_data
    cases hcc : cleanContacts (lowerIfNonempty d.contacts) with
    | some c => rfl
    | none =>
        exfalso
        unfold cleanContacts at hcc
        by_cases he : dfEmpty (lowerIfNonempty d.contacts) = true
        · rw [if_pos he] at hcc
          exact Option.noConfusion hcc
        · rw [if_neg he] at hcc
          cases hfind : findColIdx (("created_at").toList)
              (lowerIfNonempty d.contacts) with
          | some i =>
              rw [show fixCreated (lowerIfNonempty d.contacts) =
                  some (⟨List.modify (fun p => (p.1, DType.dt)) i
                      (lowerIfNonempty d.contacts).header,
                    (lowerIfNonempty d.contacts).rows.map
                      (List.modify (cleanCreatedCell
                        (((lowerIfNonempty d.contacts).header.getD i
                          ([], DType.obj)).2)) i)⟩ : DF) from by
                unfold fixCreated
                rw [hfind]] at hcc
              exact Option.noConfusion hcc
          | none =>
              rcases hd with hd | hd
              · rw [dfEmpty_lower] at he
                exact he hd
              · exact hd hfind
  · intro d o h i hfi r hr v hv
    unfold clean_data at h
    cases hcc : cleanContacts (lowerIfNonempty d.contacts) with
    | none => rw [hcc] at h; exact absurd h (by simp)
    | some c =>
        rw [hcc] at h
        injection h with ho
        have hoc : o.contacts = c := by rw [← ho]
        by_cases h0 : dfEmpty d.contacts = true
        · have e1 : lowerIfNonempty d.contacts = d.contacts := by
            rw [lowerIfNonempty, if_pos h0]
          rw [e1, cleanContacts, if_pos h0] at hcc
          injection hcc with hc0
          by_cases hre : d.contacts.rows = []
          · rw [hoc, ← hc0, hre] at hr
            exact absurd hr (List.not_mem_nil r)
          · have hh0 : d.contacts.header = [] := by
              unfold dfEmpty at h0
              cases hrw : d.contacts.rows.isEmpty with
              | true => exact absurd (List.isEmpty_eq_true.mp hrw) hre
              | false =>
                  rw [hrw, Bool.false_or] at h0
                  exact List.isEmpty_eq_true.mp h0
            rw [hoc, ← hc0] at hfi
            unfold findColIdx at hfi
            rw [hh0] at hfi
            exact Option.noConfusion hfi
        · have hne : dfEmpty d.contacts = false := by
            rwa [Bool.not_eq_true] at h0
          obtain ⟨i0, hfind, hcase⟩ := cleanContacts_structure hne hcc
          have hH1 := pass2_header hfind
          have hfind1 : List.findIdx?
              (fun p => p.1 == (("created_at").toList))
              (List.modify (fun p => (p.1, DType.dt)) i0
                (lowerNames d.contacts.header)) = some i0 := by
            rw [findIdx?_congr (fun p => p.1 == (("created_at").toList))
              (fun p => (p.1, DType.dt)) i0 (lowerNames d.contacts.header)
              (fun x => rfl)]
            exact hfind
          rcases hcase with ⟨-, hc⟩ | ⟨-, hc⟩
          · rw [hoc, hc] at hfi hr
            have hii : (some i0 : Option Nat) = some i := by
              rw [← hfind1]
              exact hfi
            injection hii with hi0
            rw [← hi0] at hv
            have hr2 : r ∈ (d.contacts.rows.map
                (List.modify (cleanCreatedCell
                  (((lowerNames d.contacts.header).getD i0
                    ([], DType.obj)).2)) i0)).map
                (stripRow (List.modify (fun p => (p.1, DType.dt)) i0
                  (lowerNames d.contacts.header)) [("created_at").toList]) :=
              mem_dedupF.mp hr
            have hcv : cleanCreatedCell DType.dt v = v :=
              pass2_cell hH1 hr2 hv
            rcases cleanCreatedCell_shape DType.dt v with hsh | ⟨t, hsh, -⟩
            · rw [hcv] at hsh
              rw [hsh]
              rfl
            · rw [hcv] at hsh
              rw [hsh]
              rfl
          · rw [hoc, hc] at hfi hr
            have hfi2 : List.findIdx? (fun p => p.1 == (("created_at").toList))
                (((("id").toList), DType.num) ::
                  List.modify (fun p => (p.1, DType.dt)) i0
                    (lowerNames d.contacts.header)) = some i := hfi
            rw [List.findIdx?_cons, if_neg (by decide), List.findIdx?_succ,
              hfind1, Option.map_some'] at hfi2
            injection hfi2 with hi0
            rw [← hi0] at hv
            obtain ⟨j, r2, hshape, hr2, -⟩ := mem_addIdCol (mem_dedupF.mp hr)
            rw [hshape, List.getElem?_cons_succ] at hv
            have hcv : cleanCreatedCell DType.dt v = v :=
              pass2_cell hH1 hr2 hv
            rcases cleanCreatedCell_shape DType.dt v with hsh | ⟨t, hsh, -⟩
            · rw [hcv] at hsh
              rw [hsh]
              rfl
            · rw [hcv] at hsh
              rw [hsh]
              rfl

/-- Concrete created_at cleaning runs: removing a parenthesized timezone note,
nulling an unparsable text, a successful whole-table run, and a parsed output
cell. -/
theorem C9_created_at_cleaning_witness :
    (cleanCreatedCell DType.obj
        (Val.vs ((("2023-01-15 10:30:00 ").toList) ++
          '(' :: ((("Pacific Time").toList) ++ ')' :: []))) =
      cleanCreatedCell DType.obj
        (Val.vs ((("2023-01-15 10:30:00 ").toList) ++ []))) ∧
    (cleanCreatedCell DType.obj (Val.vs (("garbage").toList)) = Val.vnull) ∧
    ((clean_data exCleanIn).isSome = true) ∧
    (isDtOrNull (Val.vdt ⟨2023, 1, 15, 10, 30, 0⟩) = true) :=
  ⟨C9_created_at_cleaning.1 (("2023-01-15 10:30:00 ").toList)
      (("Pacific Time").toList) [] (by decide) (by decide) (by decide),
    C9_created_at_cleaning.2.1 (("garbage").toList) (by decide),
    C9_created_at_cleaning.2.2.1 exCleanIn (Or.inr (by decide)),
    C9_created_at_cleaning.2.2.2 exCleanIn exCleanOut (by decide) 3 (by decide)
      [Val.vnum 1, Val.vnum 5, Val.vs (("a@x").toList),
        Val.vdt ⟨2023, 1, 15, 10, 30, 0⟩] (by decide)
      (Val.vdt ⟨2023, 1, 15, 10, 30, 0⟩) (by decide)⟩
